import Mathlib

/-! Stream scheduling in `MavlinkStream::update`.

A shallow embedding of `src/modules/mavlink/mavlink_stream.cpp`.

* Times (`hrt_abstime`) and `interval_us` are `uint64_t` in the source.  They are natural
  numbers here, and every addition and subtraction the source performs on them is reduced
  modulo `2 ^ 64` explicitly.
* `float` values are the rationals they denote; a conversion to `float` and the result of a
  `float` division are rounded to 24 significant bits, to nearest, ties to even.
* `hrt_absolute_time ()` is the argument `t` of `update`; the virtual `send` is a function
  from the time it is given to the boolean it returns.  `update_data ()` only touches data
  of the concrete stream and is left out.
* The result of `update` carries the new object, the returned `int` and a record of the
  call to `send`, if one was made.
-/

/-- Number of values of a `uint64_t`. -/
def UINT64_SIZE : Nat := 2 ^ 64

/-- Conversion of a signed integer to `uint64_t`: reduction modulo `2 ^ 64`. -/
def toUInt64 (z : Int) : Nat := (z % (UINT64_SIZE : Int)).toNat

/-- Conversion of a real value to an integer: the fractional part is discarded
(rounding toward zero). -/
def truncate (q : ℚ) : Int := if 0 ≤ q then ⌊q⌋ else ⌈q⌉

/-- Number of significand bits of a `float` (IEEE 754 binary32): `FLT_MANT_DIG`. -/
def FLT_MANT_DIG : Nat := 24

/-- Rounding of a real value to the nearest integer, a tie going to the even neighbour. -/
def roundHalfEven (x : ℚ) : Int :=
  if x - ⌊x⌋ < 1 / 2 then ⌊x⌋
  else if 1 / 2 < x - ⌊x⌋ then ⌊x⌋ + 1
  else if ⌊x⌋ % 2 = 0 then ⌊x⌋ else ⌊x⌋ + 1

/-- The binary exponent of the last significand bit of the `float` nearest to `q`: with
`2 ^ n ≤ |q| < 2 ^ (n + 1)` it is `n - (FLT_MANT_DIG - 1)`. -/
def floatExponent (q : ℚ) : Int := Int.log 2 |q| - ((FLT_MANT_DIG : Int) - 1)

/-- Conversion of a real value to `float`, and the rounding of the exact result of a `float`
operation: the nearest value with `FLT_MANT_DIG` significant bits, ties to even (the default
rounding mode).  The exponent range of the format is not modelled: a value beyond `FLT_MAX`
stays finite, and a quotient below the smallest normal number keeps full precision (it is
truncated to 0 by the conversion to `uint64_t` either way). -/
def toFloat (q : ℚ) : ℚ :=
  (roundHalfEven (q / (2 : ℚ) ^ floatExponent q) : ℚ) * (2 : ℚ) ^ floatExponent q

namespace math

/-- Modelled from the spec: `math::constrain` is defined in the mathlib headers, outside the
sources at hand.  The spec calls it `clamp (value, low, high)`; it is the usual
`(val < min) ? min : ((val > max) ? max : val)`. -/
def constrain (val min_val max_val : Nat) : Nat :=
  if val < min_val then min_val else if val > max_val then max_val else val

end math

/-- The members of `MavlinkStream` that `update` reads or writes.  `const_rate` is the
virtual `const_rate ()`, fixed for a given object.  The members are declared in
`mavlink_stream.h` (outside the sources at hand): `_interval` is a signed integer,
`_last_sent` an `hrt_abstime`. -/
structure MavlinkStream where
  _interval : Int
  _last_sent : Nat
  _first_message_sent : Bool
  const_rate : Bool
  deriving DecidableEq

/-- What one call of `update` produces: the object afterwards, the returned value, and the
call `send (t)` that was made (argument and result), if any. -/
structure UpdateResult where
  stream : MavlinkStream
  ret : Int
  send_call : Option (Nat × Bool)
  deriving DecidableEq

namespace MavlinkStream

/-- The constructor: `_last_sent = hrt_absolute_time ()`.  The other members take the values
given by the caller here (their initialisers are in the header). -/
def construct (now : Nat) (interval : Int) (is_const_rate : Bool) : MavlinkStream :=
  { _interval := interval, _last_sent := now, _first_message_sent := false,
    const_rate := is_const_rate }

/-- The local `interval_us` of `update`:
`const_rate () ? _interval : (_interval / _mavlink->get_rate_mult ())`, stored in a
`uint64_t`.

`Mavlink::get_rate_mult` is declared in `mavlink_main.h`, outside the sources at hand, as
`float get_rate_mult ()`; `rate_mult` is the value of that `float`.  The quotient is a
`float` division: `_interval` is converted to `float` and the exact quotient is rounded to
`float`.  The conditional expression has the type of its third operand, so for a const-rate
stream too `_interval` is converted to `float` before it is stored.  The conversion of the
`float` to `uint64_t` discards the fractional part; values that do not fit a `uint64_t`
(undefined in C++) are reduced modulo `2 ^ 64`. -/
def interval_us (s : MavlinkStream) (rate_mult : ℚ) : Nat :=
  if s.const_rate then toUInt64 (truncate (toFloat (s._interval : ℚ)))
  else toUInt64 (truncate (toFloat (toFloat (s._interval : ℚ) / rate_mult)))

/-- The method `MavlinkStream::update`, with the clock reading `t`, the rate multiplier of the
link and the behaviour of `send` as arguments. -/
def update (s : MavlinkStream) (rate_mult : ℚ) (t : Nat) (send : Nat → Bool) : UpdateResult :=
  if s._interval = 0 then
    { stream := s, ret := 0, send_call := none }
  else if s._interval < 0 ∨ s._last_sent = 0 then
    if send t then
      { stream := { s with
          _last_sent := t
          _first_message_sent :=
            if s._first_message_sent = false then true else s._first_message_sent }
        ret := 0
        send_call := some (t, true) }
    else
      { stream := s, ret := -1, send_call := some (t, false) }
  else
    let interval_us := s.interval_us rate_mult
    if t ≥ (s._last_sent + interval_us) % UINT64_SIZE then
      if send t then
        { stream := { s with
            _last_sent :=
              math.constrain ((s._last_sent + interval_us) % UINT64_SIZE)
                ((t + UINT64_SIZE - interval_us) % UINT64_SIZE) t
            _first_message_sent :=
              if s._first_message_sent = false then true else s._first_message_sent }
          ret := 0
          send_call := some (t, true) }
      else
        { stream := s, ret := -1, send_call := some (t, false) }
    else
      { stream := s, ret := -1, send_call := none }

end MavlinkStream

/-- One scheduling tick of the driver loop: the clock reading, the rate multiplier of the link
at that moment, and whether `send` succeeds if it is called. -/
structure Tick where
  now : Nat
  rate_mult : ℚ
  send_ok : Bool

namespace MavlinkStream

/-- Successive calls of `update` on the same object, one per tick; the results of the calls
in order. -/
def run : MavlinkStream → List Tick → List UpdateResult
  | _, [] => []
  | s, k :: ks =>
    (s.update k.rate_mult k.now (fun _ => k.send_ok)) ::
      run (s.update k.rate_mult k.now (fun _ => k.send_ok)).stream ks

end MavlinkStream

/-- Whether the call made `send` and `send` returned true. -/
def UpdateResult.emitted (r : UpdateResult) : Bool :=
  match r.send_call with
  | some (_, ok) => ok
  | none => false

/-- Ticks `T + iv`, `T + 2 * iv`, ..., `T + n * iv`, with any rate multipliers and a `send`
that succeeds every time. -/
def evenTicks (T iv : Nat) (mult : Nat → ℚ) (n : Nat) : List Tick :=
  (List.range n).map (fun k => { now := T + (k + 1) * iv, rate_mult := mult k, send_ok := true })

/-- The number of calls in a run that emitted. -/
def emittedCount (rs : List UpdateResult) : Nat :=
  rs.countP (fun r => r.emitted)

/-! ## Sample objects -/

/-- A const-rate stream sending once per second, last sent at five seconds. -/
def sampleConst : MavlinkStream :=
  { _interval := 1000000, _last_sent := 5000000, _first_message_sent := false,
    const_rate := true }

/-- A stream with a variable rate, nominally once per second, last sent at five seconds. -/
def sampleVar : MavlinkStream :=
  { _interval := 1000000, _last_sent := 5000000, _first_message_sent := true,
    const_rate := false }

/-- A `send` that always succeeds. -/
def sendOk : Nat → Bool := fun _ => true

/-- A `send` that always fails. -/
def sendFail : Nat → Bool := fun _ => false

/-- A disabled stream (interval 0) that has never sent. -/
def sampleDisabled : MavlinkStream :=
  { _interval := 0, _last_sent := 0, _first_message_sent := false, const_rate := false }

/-- An unthrottled stream (negative interval), last sent at five seconds. -/
def sampleUnlimited : MavlinkStream :=
  { _interval := -1, _last_sent := 5000000, _first_message_sent := true,
    const_rate := false }

/-- A stream at 1 Hz that has never sent. -/
def sampleNever : MavlinkStream :=
  { _interval := 1000000, _last_sent := 0, _first_message_sent := false,
    const_rate := true }

/-- The stream of the 1 Hz scenario: const rate, one second interval, last sent at `T`. -/
def scenarioStream (T : Nat) (first_sent : Bool) : MavlinkStream :=
  { _interval := 1000000, _last_sent := T, _first_message_sent := first_sent,
    const_rate := true }

/-! ## The protocol word of `netman` (`src/systemcmds/netman/netman.cpp`)

C strings are lists of characters (without the terminating NUL). -/

/-- The C library `strstr`: the tail of `haystack` that starts at the first occurrence of
`needle`, or nothing when `needle` does not occur. -/
def strstr : List Char → List Char → Option (List Char)
  | [], needle => if needle.isPrefixOf [] then some [] else none
  | c :: cs, needle => if needle.isPrefixOf (c :: cs) then some (c :: cs) else strstr cs needle

namespace net_params

/-- Enumerator `DHCP` of `enum proto_e`. -/
def DHCP : Int := 1

/-- Enumerator `Static` of `enum proto_e`. -/
def Static : Int := 2

/-- Enumerator `Both` of `enum proto_e`. -/
def Both : Int := 3

/-- The class `net_params::ipl`: the word looked for in the configuration file and the
anonymous union, read through its member `e`.  The union also holds addresses and is zeroed
by the constructor, so `e` is an integer and not only one of the three enumerators. -/
structure ipl where
  myword : List Char
  e : Int
  deriving DecidableEq

namespace ipl

/-- The method `protocol ()`: `e == Static ? "static" : (e == DHCP) ? "dhcp" : "both"`. -/
def protocol (x : ipl) : List Char :=
  if x.e = Static then "static".toList else if x.e = DHCP then "dhcp".toList else "both".toList

/-- The method `parseProtocol (ps)`: the object afterwards and the returned pointer, which is
`ps` itself. -/
def parseProtocol (x : ipl) (ps : List Char) : ipl × List Char :=
  match strstr ps "dhcp".toList with
  | some _ => ({ x with e := DHCP }, ps)
  | none =>
    match strstr ps "static".toList with
    | some _ => ({ x with e := Static }, ps)
    | none =>
      match strstr ps "both".toList with
      | some _ => ({ x with e := Both }, ps)
      | none => (x, ps)

end ipl

end net_params

/-- The member `proto` of `net_params` as constructed, before any parameter is read. -/
def sampleProto : net_params.ipl := { myword := "proto ".toList, e := 0 }

/-- A const-rate stream with an interval of 16777217 us (`2 ^ 24 + 1`, about 0.06 Hz), last
sent at five seconds. -/
def sampleSlow : MavlinkStream :=
  { _interval := 16777217, _last_sent := 5000000, _first_message_sent := false,
    const_rate := true }

/-- A stream with a variable rate and a nominal interval of eleven seconds, last sent at
five seconds. -/
def sampleEleven : MavlinkStream :=
  { _interval := 11000000, _last_sent := 5000000, _first_message_sent := true,
    const_rate := false }

/-! ## Rounding to `float` -/

/-- An integer rounds to itself. -/
theorem roundHalfEven_intCast (n : Int) : roundHalfEven (n : ℚ) = n := by
  unfold roundHalfEven
  rw [Int.floor_intCast, sub_self, if_pos (by norm_num)]

/-- A value less than half a unit away from an integer rounds to it. -/
theorem roundHalfEven_of_near (n : Int) (x : ℚ) (h1 : (n : ℚ) - 1 / 2 < x)
    (h2 : x < (n : ℚ) + 1 / 2) : roundHalfEven x = n := by
  unfold roundHalfEven
  by_cases hx : (n : ℚ) ≤ x
  · have hf : ⌊x⌋ = n := by
      rw [Int.floor_eq_iff]
      constructor
      · exact hx
      · linarith
    rw [hf, if_pos (by linarith)]
  · have hx2 : x < n := not_le.mp hx
    have hf : ⌊x⌋ = n - 1 := by
      rw [Int.floor_eq_iff]
      push_cast
      constructor <;> linarith
    rw [hf]
    push_cast
    rw [if_neg (by linarith), if_pos (by linarith)]
    ring

/-- A value half way above an even integer rounds down to it. -/
theorem roundHalfEven_of_tie_even (n : Int) (x : ℚ) (hx : x = (n : ℚ) + 1 / 2)
    (hn : n % 2 = 0) : roundHalfEven x = n := by
  have hf : ⌊x⌋ = n := by
    rw [Int.floor_eq_iff]
    constructor <;> linarith
  unfold roundHalfEven
  rw [hf, if_neg (by linarith), if_neg (by linarith), if_pos hn]

theorem roundHalfEven_nonneg (x : ℚ) (hx : 0 ≤ x) : 0 ≤ roundHalfEven x := by
  have hf : 0 ≤ ⌊x⌋ := Int.floor_nonneg.mpr hx
  unfold roundHalfEven
  split
  · exact hf
  · split
    · omega
    · split <;> omega

/-- The exponent of a value between two consecutive powers of two. -/
theorem floatExponent_eq (q : ℚ) (k : Int) (h1 : (2 : ℚ) ^ (k + 23) ≤ |q|)
    (h2 : |q| < (2 : ℚ) ^ (k + 24)) : floatExponent q = k := by
  have hpos : 0 < |q| := lt_of_lt_of_le (zpow_pos (by norm_num) _) h1
  have a1 : k + 23 ≤ Int.log 2 |q| := by
    rw [← Int.zpow_le_iff_le_log (by norm_num) hpos]
    exact_mod_cast h1
  have a2 : Int.log 2 |q| < k + 24 := by
    rw [← Int.lt_zpow_iff_log_lt (by norm_num) hpos]
    exact_mod_cast h2
  unfold floatExponent FLT_MANT_DIG
  omega

/-- The `float` nearest to a value whose binade is known. -/
theorem toFloat_eq (q : ℚ) (k : Int) (h1 : (2 : ℚ) ^ (k + 23) ≤ |q|)
    (h2 : |q| < (2 : ℚ) ^ (k + 24)) :
    toFloat q = (roundHalfEven (q / (2 : ℚ) ^ k) : ℚ) * (2 : ℚ) ^ k := by
  unfold toFloat
  rw [floatExponent_eq q k h1 h2]

theorem toFloat_zero : toFloat 0 = 0 := by
  unfold toFloat
  rw [zero_div]
  have : roundHalfEven 0 = 0 := by
    have := roundHalfEven_intCast 0
    simpa using this
  rw [this]
  simp

theorem toFloat_nonneg (q : ℚ) (hq : 0 ≤ q) : 0 ≤ toFloat q := by
  unfold toFloat
  have hp : (0 : ℚ) < (2 : ℚ) ^ floatExponent q := zpow_pos (by norm_num) _
  have hr := roundHalfEven_nonneg (q / (2 : ℚ) ^ floatExponent q) (div_nonneg hq (le_of_lt hp))
  have hr2 : (0 : ℚ) ≤ (roundHalfEven (q / (2 : ℚ) ^ floatExponent q) : ℚ) := by exact_mod_cast hr
  exact mul_nonneg hr2 (le_of_lt hp)

theorem floatExponent_two_mul (q : ℚ) (hq : q ≠ 0) :
    floatExponent (2 * q) = floatExponent q + 1 := by
  have hpos : 0 < |q| := abs_pos.mpr hq
  have b1 := Int.zpow_log_le_self (b := 2) (r := |q|) (by norm_num) hpos
  have b2 := Int.lt_zpow_succ_log_self (b := 2) (by norm_num) |q|
  have habs : |2 * q| = 2 * |q| := by rw [abs_mul]; norm_num
  apply floatExponent_eq
  · rw [habs]
    unfold floatExponent FLT_MANT_DIG
    have : Int.log 2 |q| - ((24 : ℕ) - 1 : ℤ) + 1 + 23 = Int.log 2 |q| + 1 := by push_cast; ring
    rw [this, zpow_add_one₀ (by norm_num)]
    push_cast at b1
    linarith
  · rw [habs]
    unfold floatExponent FLT_MANT_DIG
    have : Int.log 2 |q| - ((24 : ℕ) - 1 : ℤ) + 1 + 24 = Int.log 2 |q| + 1 + 1 := by
      push_cast; ring
    rw [this, zpow_add_one₀ (by norm_num) (Int.log 2 |q| + 1)]
    push_cast at b2
    linarith

/-- Doubling commutes with the rounding to `float`. -/
theorem toFloat_two_mul (q : ℚ) : toFloat (2 * q) = 2 * toFloat q := by
  by_cases hq : q = 0
  · rw [hq, mul_zero, toFloat_zero, mul_zero]
  · unfold toFloat
    rw [floatExponent_two_mul q hq, zpow_add_one₀ (by norm_num)]
    have h2 : (2 : ℚ) ^ floatExponent q ≠ 0 := zpow_ne_zero _ (by norm_num)
    have : 2 * q / ((2 : ℚ) ^ floatExponent q * 2) = q / (2 : ℚ) ^ floatExponent q := by
      field_simp
      ring
    rw [this]
    ring

/-- Integers below `2 ^ 24` are `float` values. -/
theorem toFloat_intCast_of_lt (i : Int) (h0 : 0 ≤ i) (h : i < 2 ^ 24) :
    toFloat (i : ℚ) = i := by
  rcases eq_or_lt_of_le h0 with h0 | hpos
  · rw [← h0]
    simpa using toFloat_zero
  · have hq : (0 : ℚ) < (i : ℚ) := by exact_mod_cast hpos
    have habs : |(i : ℚ)| = i := abs_of_pos hq
    have hlog0 : 0 ≤ Int.log 2 |(i : ℚ)| := by
      rw [← Int.zpow_le_iff_le_log (by norm_num) (by rw [habs]; exact hq), habs]
      simp only [zpow_zero]
      exact_mod_cast hpos
    have hlog1 : Int.log 2 |(i : ℚ)| < 24 := by
      rw [← Int.lt_zpow_iff_log_lt (by norm_num) (by rw [habs]; exact hq), habs]
      exact_mod_cast h
    obtain ⟨d, hd⟩ : ∃ d : ℕ, floatExponent (i : ℚ) = -(d : ℤ) := by
      refine ⟨(23 - Int.log 2 |(i : ℚ)|).toNat, ?_⟩
      unfold floatExponent FLT_MANT_DIG
      rw [Int.toNat_of_nonneg (by omega)]
      push_cast
      ring
    unfold toFloat
    rw [hd, zpow_neg, zpow_natCast, div_inv_eq_mul]
    have hcast : (i : ℚ) * (2 : ℚ) ^ d = ((i * 2 ^ d : ℤ) : ℚ) := by push_cast; ring
    rw [hcast, roundHalfEven_intCast]
    push_cast
    field_simp

/-- The integer `2 ^ 24 + 1` lies half way between two `float` values and is converted to the
even one, `2 ^ 24`. -/
theorem toFloat_16777217 : toFloat ((16777217 : Int) : ℚ) = 16777216 := by
  rw [toFloat_eq _ 1 (by norm_num [abs_of_pos]) (by norm_num [abs_of_pos]),
    roundHalfEven_of_tie_even 8388608 _ (by norm_num) (by decide)]
  norm_num

/-- A value half way above an odd integer rounds up to the even integer that follows. -/
theorem roundHalfEven_of_tie_odd (n : Int) (x : ℚ) (hx : x = (n : ℚ) + 1 / 2)
    (hn : n % 2 = 1) : roundHalfEven x = n + 1 := by
  have hf : ⌊x⌋ = n := by
    rw [Int.floor_eq_iff]
    constructor <;> linarith
  unfold roundHalfEven
  rw [hf, if_neg (by linarith), if_neg (by linarith), if_neg (by omega)]

/-- The integer `2 ^ 24 + 3` is converted to the even neighbour above, `2 ^ 24 + 4`. -/
theorem toFloat_16777219 : toFloat ((16777219 : Int) : ℚ) = 16777220 := by
  rw [toFloat_eq _ 1 (by norm_num [abs_of_pos]) (by norm_num [abs_of_pos]),
    roundHalfEven_of_tie_odd 8388609 _ (by norm_num) (by decide)]
  norm_num

/-- The integer 33333333 (a 0.03 Hz interval) is converted to 33333332. -/
theorem toFloat_33333333 : toFloat ((33333333 : Int) : ℚ) = 33333332 := by
  rw [toFloat_eq _ 1 (by norm_num [abs_of_pos]) (by norm_num [abs_of_pos]),
    roundHalfEven_of_tie_even 16666666 _ (by norm_num) (by decide)]
  norm_num

/-- The largest 32-bit `int`, `2 ^ 31 - 1`, is converted to `2 ^ 31`. -/
theorem toFloat_2147483647 : toFloat ((2147483647 : Int) : ℚ) = 2147483648 := by
  rw [toFloat_eq _ 7 (by norm_num [abs_of_pos]) (by norm_num [abs_of_pos]),
    roundHalfEven_of_near 16777216 _ (by norm_num) (by norm_num)]
  norm_num

/-- The quotient 11000000 / 0.75 = 14666666.67 is rounded up to the `float` 14666667. -/
theorem toFloat_eleven_quotient :
    toFloat (toFloat ((11000000 : Int) : ℚ) / (3 / 4)) = 14666667 := by
  rw [toFloat_intCast_of_lt _ (by decide) (by decide),
    toFloat_eq _ 0 (by norm_num [abs_of_pos]) (by norm_num [abs_of_pos]),
    roundHalfEven_of_near 14666667 _ (by norm_num) (by norm_num)]
  norm_num

/-! ## Basic facts -/

theorem interval_us_lt (s : MavlinkStream) (m : ℚ) : s.interval_us m < UINT64_SIZE := by
  have hpos : (0 : Int) < (UINT64_SIZE : Int) := by simp [UINT64_SIZE]
  have key : ∀ z : Int, toUInt64 z < UINT64_SIZE := by
    intro z
    unfold toUInt64
    have h1 := Int.emod_lt_of_pos z hpos
    have h2 := Int.emod_nonneg z (ne_of_gt hpos)
    omega
  unfold MavlinkStream.interval_us
  split
  · exact key _
  · exact key _

theorem toUInt64_of_nonneg_lt (z : Int) (h0 : 0 ≤ z) (h1 : z < (UINT64_SIZE : Int)) :
    (toUInt64 z : Int) = z := by
  unfold toUInt64
  rw [Int.emod_eq_of_lt h0 h1]
  exact Int.toNat_of_nonneg h0

/-- In the scheduled branch with the deadline reached, a successful `send` stores the
clamped value; all 64-bit operations are exact there. -/
theorem update_due_success (s : MavlinkStream) (m : ℚ) (t : Nat) (send : Nat → Bool)
    (hi : 0 < s._interval) (hl : s._last_sent ≠ 0) (ht : t < UINT64_SIZE)
    (hdue : s._last_sent + s.interval_us m ≤ t) (hsend : send t = true) :
    s.update m t send =
      { stream := { s with
          _last_sent := math.constrain (s._last_sent + s.interval_us m) (t - s.interval_us m) t
          _first_message_sent := true }
        ret := 0
        send_call := some (t, true) } := by
  have hne : s._interval ≠ 0 := ne_of_gt hi
  have hnot : ¬ (s._interval < 0 ∨ s._last_sent = 0) := by
    rintro (h | h)
    · omega
    · exact hl h
  have hadd : (s._last_sent + s.interval_us m) % UINT64_SIZE = s._last_sent + s.interval_us m :=
    Nat.mod_eq_of_lt (lt_of_le_of_lt hdue ht)
  have hsub : (t + UINT64_SIZE - s.interval_us m) % UINT64_SIZE = t - s.interval_us m := by
    have hle : s.interval_us m ≤ t := le_trans (Nat.le_add_left _ _) hdue
    have : t + UINT64_SIZE - s.interval_us m = (t - s.interval_us m) + UINT64_SIZE := by omega
    rw [this, Nat.add_mod_right]
    exact Nat.mod_eq_of_lt (lt_of_le_of_lt (Nat.sub_le _ _) ht)
  unfold MavlinkStream.update
  simp only [hne, hnot, if_false, hadd, hsub, hsend, if_true, ge_iff_le, hdue]
  cases s._first_message_sent <;> rfl

/-- The value `constrain` returns when its bounds are ordered lies between them. -/
theorem constrain_mem (v lo hi : Nat) (h : lo ≤ hi) :
    lo ≤ math.constrain v lo hi ∧ math.constrain v lo hi ≤ hi := by
  unfold math.constrain
  split
  · exact ⟨le_refl _, h⟩
  · split
    · exact ⟨h, le_refl _⟩
    · constructor <;> omega

/-- The conversion to an integer leaves an integral value as it is. -/
theorem truncate_intCast (n : Int) : truncate (n : ℚ) = n := by
  unfold truncate
  split
  · exact Int.floor_intCast n
  · exact Int.ceil_intCast n

/-- The effective interval of a const-rate stream whose interval is a `float` value
(below `2 ^ 24`): the interval itself. -/
theorem interval_us_const (s : MavlinkStream) (m : ℚ) (hc : s.const_rate = true)
    (hi : 0 ≤ s._interval) (h24 : s._interval < 2 ^ 24) :
    s.interval_us m = s._interval.toNat := by
  have h : (s.interval_us m : Int) = s._interval := by
    unfold MavlinkStream.interval_us
    rw [if_pos hc, toFloat_intCast_of_lt _ hi h24, truncate_intCast]
    apply toUInt64_of_nonneg_lt _ hi
    have h64 : ((2 : Int) ^ 24) < (UINT64_SIZE : Int) := by
      unfold UINT64_SIZE
      norm_num
    omega
  omega

/-- The effective interval of a const-rate stream does not depend on the multiplier. -/
theorem interval_us_const_indep (s : MavlinkStream) (m1 m2 : ℚ) (hc : s.const_rate = true) :
    s.interval_us m1 = s.interval_us m2 := by
  unfold MavlinkStream.interval_us
  rw [if_pos hc, if_pos hc]

/-- The effective interval of the 1 Hz scenario stream is one second. -/
theorem scenarioStream_interval_us (T : Nat) (f : Bool) (m : ℚ) :
    (scenarioStream T f).interval_us m = 1000000 :=
  interval_us_const (scenarioStream T f) m rfl
    (show (0 : Int) ≤ 1000000 by decide) (show (1000000 : Int) < 2 ^ 24 by decide)

/-- The effective interval of the const-rate sample is one second. -/
theorem sampleConst_interval_us (m : ℚ) : sampleConst.interval_us m = 1000000 :=
  scenarioStream_interval_us 5000000 false m

/-- The effective interval of the slow const-rate sample is one microsecond short of its
interval. -/
theorem sampleSlow_interval_us (m : ℚ) : sampleSlow.interval_us m = 16777216 := by
  have h : (sampleSlow.interval_us m : Int) = 16777216 := by
    unfold MavlinkStream.interval_us
    rw [if_pos (show sampleSlow.const_rate = true from rfl)]
    show (toUInt64 (truncate (toFloat ((16777217 : Int) : ℚ))) : Int) = 16777216
    rw [toFloat_16777217]
    have hc : (16777216 : ℚ) = ((16777216 : Int) : ℚ) := by norm_num
    rw [hc, truncate_intCast]
    exact toUInt64_of_nonneg_lt _ (by decide) (by decide)
  omega

/-- At half the nominal link rate the variable-rate sample waits two seconds. -/
theorem sampleVar_interval_us_half : sampleVar.interval_us (1 / 2) = 2000000 := by
  have h : (sampleVar.interval_us (1 / 2) : Int) = 2000000 := by
    unfold MavlinkStream.interval_us
    rw [if_neg (by decide)]
    show (toUInt64 (truncate (toFloat (toFloat ((1000000 : Int) : ℚ) / (1 / 2)))) : Int)
      = 2000000
    rw [toFloat_intCast_of_lt _ (by decide) (by decide)]
    have hq : ((1000000 : Int) : ℚ) / (1 / 2) = ((2000000 : Int) : ℚ) := by norm_num
    rw [hq, toFloat_intCast_of_lt _ (by decide) (by decide), truncate_intCast]
    exact toUInt64_of_nonneg_lt _ (by decide) (by decide)
  omega

/-- At three quarters of the nominal link rate the eleven-second sample waits 14666667 us:
the `float` quotient is rounded up from 14666666.67. -/
theorem sampleEleven_interval_us : sampleEleven.interval_us (3 / 4) = 14666667 := by
  have h : (sampleEleven.interval_us (3 / 4) : Int) = 14666667 := by
    unfold MavlinkStream.interval_us
    rw [if_neg (by decide)]
    show (toUInt64 (truncate (toFloat (toFloat ((11000000 : Int) : ℚ) / (3 / 4)))) : Int)
      = 14666667
    rw [toFloat_eleven_quotient]
    have hc : (14666667 : ℚ) = ((14666667 : Int) : ℚ) := by norm_num
    rw [hc, truncate_intCast]
    exact toUInt64_of_nonneg_lt _ (by decide) (by decide)
  omega

/-! ## The scheduled branch: deadline reached -/

/-- C1, as the code has it: for a stream with `_interval > 0` and `_last_sent ≠ 0`, any rate
multiplier and any clock reading `t` with `t ≥ _last_sent + interval_us`, a successful
`send (t)` makes `update` store `constrain (_last_sent + interval_us, t - interval_us, t)` in
`_last_sent`, set `_first_message_sent` and return 0.  The effective interval `interval_us`
is `_interval` for a const-rate stream with `_interval < 2 ^ 24`, and for a stream with a
variable rate it is the `float` quotient of `_interval` by the rate multiplier, rounded to
`float` and then truncated to an unsigned integer. -/
theorem C1_due_success_clamps (s : MavlinkStream) (m : ℚ) (t : Nat) (send : Nat → Bool)
    (hi : 0 < s._interval) (hl : s._last_sent ≠ 0) (ht : t < UINT64_SIZE)
    (hdue : s._last_sent + s.interval_us m ≤ t) (hsend : send t = true) :
    (s.update m t send).stream._last_sent
        = math.constrain (s._last_sent + s.interval_us m) (t - s.interval_us m) t
      ∧ (s.update m t send).stream._first_message_sent = true
      ∧ (s.update m t send).ret = 0
      ∧ (s.update m t send).send_call = some (t, true)
      ∧ (s.const_rate = true → s._interval < 2 ^ 24 →
          (s.interval_us m : Int) = s._interval)
      ∧ (s.const_rate = false →
          0 ≤ truncate (toFloat (toFloat (s._interval : ℚ) / m)) →
          truncate (toFloat (toFloat (s._interval : ℚ) / m)) < (UINT64_SIZE : Int) →
          (s.interval_us m : Int) = truncate (toFloat (toFloat (s._interval : ℚ) / m))) := by
  rw [update_due_success s m t send hi hl ht hdue hsend]
  refine ⟨rfl, rfl, rfl, rfl, ?_, ?_⟩
  · intro hc h24
    rw [interval_us_const s m hc (le_of_lt hi) h24]
    exact Int.toNat_of_nonneg (le_of_lt hi)
  · intro hc h0 hlt
    unfold MavlinkStream.interval_us
    rw [hc]
    simp only [Bool.false_eq_true, if_false]
    exact toUInt64_of_nonneg_lt _ h0 hlt

/-- Witness for C1: a const-rate stream last sent at 5 s, polled 3.5 s later. -/
theorem C1_due_success_clamps_witness :
    (sampleConst.update 1 8500000 sendOk).stream._last_sent
        = math.constrain (sampleConst._last_sent + sampleConst.interval_us 1)
            (8500000 - sampleConst.interval_us 1) 8500000
      ∧ (sampleConst.update 1 8500000 sendOk).stream._first_message_sent = true
      ∧ (sampleConst.update 1 8500000 sendOk).ret = 0
      ∧ (sampleConst.interval_us 1 : Int) = sampleConst._interval :=
  have h := C1_due_success_clamps sampleConst 1 8500000 sendOk (by decide) (by decide)
    (by decide) (by rw [sampleConst_interval_us]; decide) rfl
  ⟨h.1, h.2.1, h.2.2.1, h.2.2.2.2.1 rfl (by decide)⟩

/-- Counterexample to C1 as stated: a stream with a variable rate, `_interval` = 11000000,
last sent at 5000000, with the rate multiplier 0.75.  The quotient 11000000 / 0.75 truncated
to an integer is 14666666, so the clock reading 19666666 is at `_last_sent` plus that value;
but the `float` quotient is 14666667, `update` finds the deadline 19666667 not reached, does
not call `send` and returns -1. -/
theorem C1_counterexample :
    0 < sampleEleven._interval ∧ sampleEleven._last_sent ≠ 0
      ∧ sampleEleven.const_rate = false
      ∧ truncate ((sampleEleven._interval : ℚ) / (3 / 4)) = 14666666
      ∧ sampleEleven._last_sent + 14666666 ≤ 19666666
      ∧ sendOk 19666666 = true
      ∧ sampleEleven.interval_us (3 / 4) = 14666667
      ∧ (sampleEleven.update (3 / 4) 19666666 sendOk).send_call = none
      ∧ (sampleEleven.update (3 / 4) 19666666 sendOk).ret = -1
      ∧ (sampleEleven.update (3 / 4) 19666666 sendOk).stream._last_sent
          = sampleEleven._last_sent := by
  have hq : truncate ((sampleEleven._interval : ℚ) / (3 / 4)) = 14666666 := by
    show truncate (((11000000 : Int) : ℚ) / (3 / 4)) = 14666666
    unfold truncate
    rw [if_pos (by norm_num), Int.floor_eq_iff]
    norm_num
  have hne : sampleEleven._interval ≠ 0 := by decide
  have hnot : ¬ (sampleEleven._interval < 0 ∨ sampleEleven._last_sent = 0) := by decide
  have hu : sampleEleven.update (3 / 4) 19666666 sendOk
      = { stream := sampleEleven, ret := -1, send_call := none } := by
    unfold MavlinkStream.update
    rw [if_neg hne, if_neg hnot]
    dsimp only
    rw [sampleEleven_interval_us, if_neg (by decide)]
  rw [hu]
  exact ⟨by decide, by decide, rfl, hq, by decide, rfl, sampleEleven_interval_us, rfl, rfl, rfl⟩

/-- With `_interval > 0`, `_last_sent ≠ 0` and a deadline `_last_sent + interval_us` that
fits 64 bits, `update` compares the clock with the exact deadline. -/
theorem update_scheduled (s : MavlinkStream) (m : ℚ) (t : Nat) (send : Nat → Bool)
    (hi : 0 < s._interval) (hl : s._last_sent ≠ 0) (ht : t < UINT64_SIZE)
    (hno : s._last_sent + s.interval_us m < UINT64_SIZE) :
    s.update m t send =
      if s._last_sent + s.interval_us m ≤ t then
        if send t then
          { stream := { s with
              _last_sent :=
                math.constrain (s._last_sent + s.interval_us m) (t - s.interval_us m) t
              _first_message_sent := true }
            ret := 0
            send_call := some (t, true) }
        else { stream := s, ret := -1, send_call := some (t, false) }
      else { stream := s, ret := -1, send_call := none } := by
  by_cases hdue : s._last_sent + s.interval_us m ≤ t
  · rw [if_pos hdue]
    by_cases hsend : send t = true
    · rw [if_pos hsend]
      exact update_due_success s m t send hi hl ht hdue hsend
    · rw [if_neg hsend]
      have hne : s._interval ≠ 0 := ne_of_gt hi
      have hnot : ¬ (s._interval < 0 ∨ s._last_sent = 0) := by
        rintro (h | h)
        · omega
        · exact hl h
      unfold MavlinkStream.update
      have hs : send t = false := by simpa using hsend
      simp only [hne, hnot, if_false, Nat.mod_eq_of_lt hno, ge_iff_le, hdue, if_true, hs,
        Bool.false_eq_true]
  · rw [if_neg hdue]
    have hne : s._interval ≠ 0 := ne_of_gt hi
    have hnot : ¬ (s._interval < 0 ∨ s._last_sent = 0) := by
      rintro (h | h)
      · omega
      · exact hl h
    unfold MavlinkStream.update
    simp only [hne, hnot, if_false, Nat.mod_eq_of_lt hno, ge_iff_le, hdue]

/-- The scheduled branch for a stream whose effective interval is known to be `v`. -/
theorem update_of_interval_us (s : MavlinkStream) (m : ℚ) (t : Nat) (send : Nat → Bool)
    (v : Nat) (hv : s.interval_us m = v)
    (hi : 0 < s._interval) (hl : s._last_sent ≠ 0) (ht : t < UINT64_SIZE)
    (hno : s._last_sent + v < UINT64_SIZE) :
    s.update m t send =
      if s._last_sent + v ≤ t then
        if send t then
          { stream := { s with
              _last_sent := math.constrain (s._last_sent + v) (t - v) t
              _first_message_sent := true }
            ret := 0
            send_call := some (t, true) }
        else { stream := s, ret := -1, send_call := some (t, false) }
      else { stream := s, ret := -1, send_call := none } := by
  subst hv
  exact update_scheduled s m t send hi hl ht hno

/-- One call on the 1 Hz scenario stream, last sent at five seconds or later. -/
theorem scenarioStream_update (T : Nat) (f : Bool) (m : ℚ) (t : Nat) (send : Nat → Bool)
    (hT : T ≠ 0) (ht : t < UINT64_SIZE) (hno : T + 1000000 < UINT64_SIZE) :
    (scenarioStream T f).update m t send =
      if T + 1000000 ≤ t then
        if send t then
          { stream := scenarioStream (math.constrain (T + 1000000) (t - 1000000) t) true
            ret := 0
            send_call := some (t, true) }
        else { stream := scenarioStream T f, ret := -1, send_call := some (t, false) }
      else { stream := scenarioStream T f, ret := -1, send_call := none } :=
  update_of_interval_us (scenarioStream T f) m t send 1000000
    (scenarioStream_interval_us T f m) (show (0 : Int) < 1000000 by decide) hT ht hno

/-- One call on the const-rate sample. -/
theorem sampleConst_update (m : ℚ) (t : Nat) (send : Nat → Bool) (ht : t < UINT64_SIZE) :
    sampleConst.update m t send =
      if 5000000 + 1000000 ≤ t then
        if send t then
          { stream := scenarioStream (math.constrain (5000000 + 1000000) (t - 1000000) t) true
            ret := 0
            send_call := some (t, true) }
        else { stream := sampleConst, ret := -1, send_call := some (t, false) }
      else { stream := sampleConst, ret := -1, send_call := none } :=
  scenarioStream_update 5000000 false m t send (by decide) ht (by decide)

/-- The value `update` returns: 0 for a disabled stream and after a successful `send`,
-1 in every other case. -/
theorem update_ret (s : MavlinkStream) (m : ℚ) (t : Nat) (send : Nat → Bool) :
    (s.update m t send).ret
      = if s._interval = 0 ∨ (s.update m t send).emitted = true then 0 else -1 := by
  unfold MavlinkStream.update
  by_cases h0 : s._interval = 0
  · simp [h0]
  · simp only [h0, if_false, false_or]
    split
    · split <;> simp [UpdateResult.emitted]
    · split
      · split <;> simp [UpdateResult.emitted]
      · simp [UpdateResult.emitted]

/-- A call that does not emit leaves the object as it was. -/
theorem update_stream_of_not_emitted (s : MavlinkStream) (m : ℚ) (t : Nat)
    (send : Nat → Bool) (h : (s.update m t send).emitted = false) :
    (s.update m t send).stream = s := by
  revert h
  unfold MavlinkStream.update
  by_cases h0 : s._interval = 0
  · simp [h0]
  · simp only [h0, if_false]
    split
    · split <;> simp [UpdateResult.emitted]
    · split
      · split <;> simp [UpdateResult.emitted]
      · simp [UpdateResult.emitted]

/-- The record of the call to `send`: when a call is made, it is made with the clock
reading and the recorded result is what `send` returned. -/
theorem update_send_call (s : MavlinkStream) (m : ℚ) (t : Nat) (send : Nat → Bool) :
    (s.update m t send).send_call = none
      ∨ (s.update m t send).send_call = some (t, send t) := by
  unfold MavlinkStream.update
  by_cases h0 : s._interval = 0
  · simp [h0]
  · simp only [h0, if_false]
    split
    · by_cases hs : send t = true <;> simp [hs]
    · split
      · by_cases hs : send t = true <;> simp [hs]
      · simp

/-- The members `_interval` and `const_rate` are never written by `update`. -/
theorem update_keeps_config (s : MavlinkStream) (m : ℚ) (t : Nat) (send : Nat → Bool) :
    (s.update m t send).stream._interval = s._interval
      ∧ (s.update m t send).stream.const_rate = s.const_rate := by
  unfold MavlinkStream.update
  by_cases h0 : s._interval = 0
  · rw [if_pos h0]
    exact ⟨rfl, rfl⟩
  · rw [if_neg h0]
    by_cases hbr : s._interval < 0 ∨ s._last_sent = 0
    · rw [if_pos hbr]
      by_cases hs : send t = true
      · rw [if_pos hs]
        exact ⟨rfl, rfl⟩
      · rw [if_neg hs]
        exact ⟨rfl, rfl⟩
    · rw [if_neg hbr]
      dsimp only
      by_cases hd : t ≥ (s._last_sent + s.interval_us m) % UINT64_SIZE
      · rw [if_pos hd]
        by_cases hs : send t = true
        · rw [if_pos hs]
          exact ⟨rfl, rfl⟩
        · rw [if_neg hs]
          exact ⟨rfl, rfl⟩
      · rw [if_neg hd]
        exact ⟨rfl, rfl⟩

/-- The effective interval depends on `_interval`, `const_rate` and the multiplier only. -/
theorem interval_us_congr (s1 s2 : MavlinkStream) (m : ℚ)
    (hint : s1._interval = s2._interval) (hcr : s1.const_rate = s2.const_rate) :
    s1.interval_us m = s2.interval_us m := by
  unfold MavlinkStream.interval_us
  rw [hint, hcr]

/-! ## Disabled streams -/

/-- A disabled stream is returned untouched, with 0, and `send` is not called. -/
theorem update_disabled (s : MavlinkStream) (m : ℚ) (t : Nat) (send : Nat → Bool)
    (h0 : s._interval = 0) :
    s.update m t send = { stream := s, ret := 0, send_call := none } := by
  unfold MavlinkStream.update
  rw [if_pos h0]

/-- C6: disabled streams never send.  For a stream with `_interval = 0` and any finite
sequence of calls of `update` (any clock reading, any rate multiplier, any `_last_sent`,
0 included), no call invokes `send`, and after every call the object, so its `_last_sent`
and `_first_message_sent`, is what it was at the start. -/
theorem C6_disabled_never_sends (s : MavlinkStream) (ticks : List Tick)
    (h0 : s._interval = 0) :
    ∀ r ∈ s.run ticks, r.send_call = none ∧ r.emitted = false
      ∧ r.stream._last_sent = s._last_sent
      ∧ r.stream._first_message_sent = s._first_message_sent
      ∧ r.stream = s := by
  induction ticks with
  | nil => intro r hr; simp [MavlinkStream.run] at hr
  | cons k ks ih =>
    intro r hr
    rw [MavlinkStream.run, update_disabled s _ _ _ h0] at hr
    rcases List.mem_cons.mp hr with h | h
    · subst h
      exact ⟨rfl, rfl, rfl, rfl, rfl⟩
    · exact ih r h

/-- Witness for C6: four ticks spread over an hour, with several rate multipliers. -/
theorem C6_disabled_never_sends_witness :
    (sampleDisabled.run
        [⟨0, 1, true⟩, ⟨1000000, 2, true⟩, ⟨1000000, 1 / 4, false⟩,
          ⟨3600000000, 1, true⟩]).length = 4
      ∧ (sampleDisabled.run
          [⟨0, 1, true⟩, ⟨1000000, 2, true⟩, ⟨1000000, 1 / 4, false⟩,
            ⟨3600000000, 1, true⟩]).all
          (fun r => decide (r.send_call = none ∧ r.stream = sampleDisabled)) = true :=
  ⟨rfl, List.all_eq_true.mpr (fun r hr =>
    have h := C6_disabled_never_sends sampleDisabled _ rfl r hr
    decide_eq_true ⟨h.1, h.2.2.2.2⟩)⟩

/-- C7, as the code has it: for a stream with `_interval = 0`, `update` returns 0 without
calling `send` and without touching the object.  That is the value every call returns after
a successful `send`, and not the -1 returned by any call on an enabled stream that does not
emit (deadline not reached, or `send` failed). -/
theorem C7_disabled_returns_zero (s : MavlinkStream) (m : ℚ) (t : Nat) (send : Nat → Bool)
    (h0 : s._interval = 0) :
    (s.update m t send).ret = 0
      ∧ (s.update m t send).send_call = none
      ∧ (s.update m t send).stream = s
      ∧ (∀ (s1 : MavlinkStream) (m1 : ℚ) (t1 : Nat) (send1 : Nat → Bool),
          (s1.update m1 t1 send1).emitted = true →
            (s1.update m1 t1 send1).ret = (s.update m t send).ret)
      ∧ (∀ (s1 : MavlinkStream) (m1 : ℚ) (t1 : Nat) (send1 : Nat → Bool),
          s1._interval ≠ 0 → (s1.update m1 t1 send1).emitted = false →
            (s1.update m1 t1 send1).ret = -1
              ∧ (s1.update m1 t1 send1).ret ≠ (s.update m t send).ret) := by
  rw [update_disabled s m t send h0]
  refine ⟨rfl, rfl, rfl, ?_, ?_⟩
  · intro s1 m1 t1 send1 he
    rw [update_ret, he]
    simp
  · intro s1 m1 t1 send1 hne he
    rw [update_ret, he]
    simp [hne]

/-- Witness for C7: the disabled sample polled at six seconds. -/
theorem C7_disabled_returns_zero_witness :
    (sampleDisabled.update 1 6000000 sendOk).ret = 0
      ∧ (sampleDisabled.update 1 6000000 sendOk).send_call = none :=
  have h := C7_disabled_returns_zero sampleDisabled 1 6000000 sendOk rfl
  ⟨h.1, h.2.1⟩

/-- Counterexample to C7 as stated: the disabled sample returns 0, not -1; the const-rate
sample returns -1 half a second before its deadline and when `send` fails at the deadline,
and 0 after a successful emission. -/
theorem C7_counterexample :
    sampleDisabled._interval = 0
      ∧ (sampleDisabled.update 1 6000000 sendOk).ret ≠ -1
      ∧ (sampleConst.update 1 5500000 sendOk).ret = -1
      ∧ (sampleConst.update 1 6000000 sendFail).ret = -1
      ∧ (sampleConst.update 1 6000000 sendOk).emitted = true
      ∧ (sampleDisabled.update 1 6000000 sendOk).ret
          = (sampleConst.update 1 6000000 sendOk).ret := by
  rw [sampleConst_update 1 5500000 sendOk (by decide),
    sampleConst_update 1 6000000 sendFail (by decide),
    sampleConst_update 1 6000000 sendOk (by decide)]
  decide

/-! ## Always-due streams -/

/-- C8: for a stream with `_interval < 0`, or with `_interval ≠ 0` and `_last_sent = 0`,
and for every clock reading, `update` calls `send` with that reading; if `send` succeeds
the new `_last_sent` is the reading, `_first_message_sent` is set and `update` returns 0. -/
theorem C8_always_due (s : MavlinkStream) (m : ℚ) (t : Nat) (send : Nat → Bool)
    (h : s._interval < 0 ∨ (s._interval ≠ 0 ∧ s._last_sent = 0)) :
    (s.update m t send).send_call = some (t, send t)
      ∧ (send t = true →
          (s.update m t send).stream._last_sent = t
            ∧ (s.update m t send).stream._first_message_sent = true
            ∧ (s.update m t send).ret = 0) := by
  have hne : s._interval ≠ 0 := by
    rcases h with h | h
    · exact ne_of_lt h
    · exact h.1
  have hbr : s._interval < 0 ∨ s._last_sent = 0 := by
    rcases h with h | h
    · exact Or.inl h
    · exact Or.inr h.2
  unfold MavlinkStream.update
  rw [if_neg hne, if_pos hbr]
  by_cases hs : send t = true
  · rw [if_pos hs, hs]
    refine ⟨rfl, fun _ => ⟨rfl, ?_, rfl⟩⟩
    cases s._first_message_sent <;> rfl
  · rw [if_neg hs]
    have hf : send t = false := by simpa using hs
    rw [hf]
    exact ⟨rfl, fun h => absurd h (by simp)⟩

/-- Witness for C8: the unthrottled sample polled one microsecond after it last sent. -/
theorem C8_always_due_witness :
    (sampleUnlimited.update 1 5000001 sendOk).send_call = some (5000001, true)
      ∧ (sampleUnlimited.update 1 5000001 sendOk).stream._last_sent = 5000001
      ∧ (sampleUnlimited.update 1 5000001 sendOk).stream._first_message_sent = true
      ∧ (sampleUnlimited.update 1 5000001 sendOk).ret = 0 :=
  have h := C8_always_due sampleUnlimited 1 5000001 sendOk (Or.inl (by decide))
  ⟨h.1, h.2 rfl⟩

/-! ## Failed emissions and early ticks -/

/-- C9: a failed emission changes nothing.  For every stream, clock reading and rate
multiplier, if `send` returns false or is not called, `update` leaves `_last_sent` and
`_first_message_sent` (the whole object) as they were; and whenever `send` was called and
returned false, `update` returns -1. -/
theorem C9_failure_is_noop (s : MavlinkStream) (m : ℚ) (t : Nat) (send : Nat → Bool)
    (h : send t = false ∨ (s.update m t send).send_call = none) :
    (s.update m t send).stream._last_sent = s._last_sent
      ∧ (s.update m t send).stream._first_message_sent = s._first_message_sent
      ∧ (s.update m t send).stream = s
      ∧ ((s.update m t send).send_call = some (t, false) → (s.update m t send).ret = -1) := by
  have hne : (s.update m t send).emitted = false := by
    rcases h with h | h
    · rcases update_send_call s m t send with hc | hc
      · simp [UpdateResult.emitted, hc]
      · simp [UpdateResult.emitted, hc, h]
    · simp [UpdateResult.emitted, h]
  have hst := update_stream_of_not_emitted s m t send hne
  refine ⟨by rw [hst], by rw [hst], hst, ?_⟩
  intro hc
  have h0 : s._interval ≠ 0 := by
    intro h0
    rw [update_disabled s m t send h0] at hc
    simp at hc
  rw [update_ret, hne]
  simp [h0]

/-- Witness for C9: `send` fails at the deadline of the const-rate sample. -/
theorem C9_failure_is_noop_witness :
    (sampleConst.update 1 6000000 sendFail).send_call = some (6000000, false)
      ∧ (sampleConst.update 1 6000000 sendFail).stream._last_sent = sampleConst._last_sent
      ∧ (sampleConst.update 1 6000000 sendFail).stream._first_message_sent
          = sampleConst._first_message_sent
      ∧ (sampleConst.update 1 6000000 sendFail).stream = sampleConst
      ∧ (sampleConst.update 1 6000000 sendFail).ret = -1 :=
  have h := C9_failure_is_noop sampleConst 1 6000000 sendFail (Or.inl rfl)
  have hc : (sampleConst.update 1 6000000 sendFail).send_call = some (6000000, false) := by
    rw [sampleConst_update 1 6000000 sendFail (by decide)]
    decide
  ⟨hc, h.1, h.2.1, h.2.2.1, h.2.2.2 hc⟩

theorem emittedCount_cons (r : UpdateResult) (rs : List UpdateResult) :
    emittedCount (r :: rs) = emittedCount rs + (if r.emitted = true then 1 else 0) := by
  unfold emittedCount
  exact List.countP_cons _ _ _

/-- Clamping a value that equals the upper bound returns it. -/
theorem constrain_upper (v lo : Nat) (h : lo ≤ v) : math.constrain v lo v = v := by
  unfold math.constrain
  rw [if_neg (not_lt.mpr h), if_neg (lt_irrefl v)]

/-- One call on a scheduled const-rate stream whose interval is a `float` value (below
`2 ^ 24`): either nothing is emitted and the object is unchanged, or the deadline was reached
and `_last_sent` advanced by at least one interval without passing the clock. -/
theorem update_const_step (s : MavlinkStream) (m : ℚ) (t : Nat) (send : Nat → Bool)
    (hc : s.const_rate = true) (hi : 0 < s._interval) (h24 : s._interval < 2 ^ 24)
    (hl : s._last_sent ≠ 0)
    (ht : t < UINT64_SIZE) (hno : s._last_sent + s._interval.toNat < UINT64_SIZE) :
    ((s.update m t send).emitted = false ∧ (s.update m t send).stream = s)
      ∨ ((s.update m t send).emitted = true
          ∧ (s.update m t send).stream._interval = s._interval
          ∧ (s.update m t send).stream.const_rate = s.const_rate
          ∧ s._last_sent + s._interval.toNat ≤ (s.update m t send).stream._last_sent
          ∧ (s.update m t send).stream._last_sent ≤ t) := by
  have hiv : s.interval_us m = s._interval.toNat :=
    interval_us_const s m hc (le_of_lt hi) h24
  have hno2 : s._last_sent + s.interval_us m < UINT64_SIZE := by rw [hiv]; exact hno
  rw [update_scheduled s m t send hi hl ht hno2, hiv]
  by_cases hdue : s._last_sent + s._interval.toNat ≤ t
  · rw [if_pos hdue]
    by_cases hs : send t = true
    · rw [if_pos hs]
      right
      have hb := constrain_mem (s._last_sent + s._interval.toNat) (t - s._interval.toNat) t
        (Nat.sub_le _ _)
      refine ⟨rfl, rfl, rfl, ?_, hb.2⟩
      show s._last_sent + s._interval.toNat
        ≤ math.constrain (s._last_sent + s._interval.toNat) (t - s._interval.toNat) t
      unfold math.constrain
      split
      · omega
      · split <;> omega
    · rw [if_neg hs]
      exact Or.inl ⟨rfl, rfl⟩
  · rw [if_neg hdue]
    exact Or.inl ⟨rfl, rfl⟩

/-- Over any run of a scheduled const-rate stream whose interval is a `float` value and
whose ticks are all at or before `B`, each emission accounts for one full interval between
the initial `_last_sent` and `B`. -/
theorem run_emitted_bound (B : Nat) (ticks : List Tick) :
    ∀ s : MavlinkStream, s.const_rate = true → 0 < s._interval → s._interval < 2 ^ 24 →
      s._last_sent ≠ 0 →
      s._last_sent + s._interval.toNat < UINT64_SIZE →
      (∀ k ∈ ticks, k.now ≤ B ∧ k.now + s._interval.toNat < UINT64_SIZE) →
      emittedCount (s.run ticks) = 0
        ∨ s._last_sent + emittedCount (s.run ticks) * s._interval.toNat ≤ B := by
  induction ticks with
  | nil => intro s _ _ _ _ _ _; left; rfl
  | cons k ks ih =>
    intro s hc hi h24 hl hno hall
    have hk := hall k (List.mem_cons_self _ _)
    have hks : ∀ x ∈ ks, x.now ≤ B ∧ x.now + s._interval.toNat < UINT64_SIZE :=
      fun x hx => hall x (List.mem_cons_of_mem _ hx)
    have ht : k.now < UINT64_SIZE := lt_of_le_of_lt (Nat.le_add_right _ _) hk.2
    rw [MavlinkStream.run]
    rcases update_const_step s k.rate_mult k.now (fun _ => k.send_ok) hc hi h24 hl ht hno with
      ⟨he, hst⟩ | ⟨he, hint, hcr, hlo, hhi⟩
    · rw [emittedCount_cons, he, hst]
      simpa using ih s hc hi h24 hl hno hks
    · rw [emittedCount_cons, he, if_pos rfl]
      right
      have hih := ih (s.update k.rate_mult k.now (fun _ => k.send_ok)).stream
        (by rw [hcr]; exact hc) (by rw [hint]; exact hi) (by rw [hint]; exact h24) (by omega)
        (by rw [hint]; omega) (by rw [hint]; exact hks)
      rw [hint] at hih
      rcases hih with h0 | hle
      · rw [h0]
        omega
      · rw [Nat.add_mul]
        omega

/-- The rate is never exceeded when the interval is a `float` value.  For a const-rate
stream with `0 < _interval < 2 ^ 24` that starts with `_last_sent = T ≠ 0`, and any finite
sequence of calls of `update` at non-decreasing 64-bit times ending with a call at time
`now`, the number of calls that emitted is at most `(now - T) / _interval`. -/
theorem rate_never_exceeded_of_exact (s : MavlinkStream) (pre : List Tick) (k : Tick)
    (hc : s.const_rate = true) (hi : 0 < s._interval) (h24 : s._interval < 2 ^ 24)
    (hl : s._last_sent ≠ 0)
    (hno : s._last_sent + s._interval.toNat < UINT64_SIZE)
    (hrange : ∀ x ∈ pre ++ [k], x.now + s._interval.toNat < UINT64_SIZE)
    (hmono : (pre ++ [k]).Pairwise (fun a b => a.now ≤ b.now)) :
    emittedCount (s.run (pre ++ [k])) ≤ (k.now - s._last_sent) / s._interval.toNat := by
  have hpos : 0 < s._interval.toNat := by omega
  have hall : ∀ x ∈ pre ++ [k], x.now ≤ k.now ∧ x.now + s._interval.toNat < UINT64_SIZE := by
    intro x hx
    refine ⟨?_, hrange x hx⟩
    rcases List.mem_append.mp hx with hp | hp
    · exact (List.pairwise_append.mp hmono).2.2 x hp k (List.mem_singleton_self k)
    · rw [List.mem_singleton.mp hp]
  rw [Nat.le_div_iff_mul_le hpos]
  rcases run_emitted_bound k.now (pre ++ [k]) s hc hi h24 hl hno hall with h0 | hle
  · rw [h0]
    simp
  · omega

/-- One call on the slow const-rate sample: the deadline is 16777216 us after `_last_sent`,
one microsecond before `_last_sent + _interval`. -/
theorem sampleSlow_update (m : ℚ) (t : Nat) (send : Nat → Bool) (ht : t < UINT64_SIZE) :
    sampleSlow.update m t send =
      if 5000000 + 16777216 ≤ t then
        if send t then
          { stream := { sampleSlow with
              _last_sent := math.constrain (5000000 + 16777216) (t - 16777216) t
              _first_message_sent := true }
            ret := 0
            send_call := some (t, true) }
        else { stream := sampleSlow, ret := -1, send_call := some (t, false) }
      else { stream := sampleSlow, ret := -1, send_call := none } :=
  update_of_interval_us sampleSlow m t send 16777216 (sampleSlow_interval_us m) (by decide)
    (by decide) ht (by decide)

/-- C3 at a failing input: the const-rate stream with `_interval` = 16777217 and
`_last_sent` = T = 5000000 is polled once, at `now` = 21777216.  The interval went through
`float` and became 16777216, so the call emits: one emission, where the bound
`(now - T) / _interval` is 0. -/
theorem C3_rate_exceeded_after_rounding :
    sampleSlow.const_rate = true ∧ 0 < sampleSlow._interval ∧ sampleSlow._last_sent ≠ 0
      ∧ emittedCount (sampleSlow.run [⟨21777216, 1, true⟩]) = 1
      ∧ (21777216 - sampleSlow._last_sent) / sampleSlow._interval.toNat = 0 := by
  refine ⟨rfl, by decide, by decide, ?_, by decide⟩
  simp only [MavlinkStream.run]
  rw [sampleSlow_update 1 21777216 (fun _ => true) (by decide)]
  decide

/-- A scheduled const-rate stream whose interval is a `float` value, polled at evenly spaced
ticks, emits at each of them and stores the tick time; stated from the `j`-th tick on. -/
theorem run_even_from (s0 : MavlinkStream) (mult : Nat → ℚ)
    (hc : s0.const_rate = true) (hi : 0 < s0._interval) (h24 : s0._interval < 2 ^ 24)
    (hl : s0._last_sent ≠ 0) (n : Nat) :
    ∀ (j : Nat) (s : MavlinkStream), s._interval = s0._interval → s.const_rate = true →
      s._last_sent = s0._last_sent + j * s0._interval.toNat →
      s0._last_sent + (j + n) * s0._interval.toNat < UINT64_SIZE →
      s.run ((List.range' j n).map (fun k =>
          { now := s0._last_sent + (k + 1) * s0._interval.toNat, rate_mult := mult k,
            send_ok := true }))
        = (List.range' j n).map (fun k =>
          { stream := { s0 with
              _last_sent := s0._last_sent + (k + 1) * s0._interval.toNat
              _first_message_sent := true }
            ret := 0
            send_call := some (s0._last_sent + (k + 1) * s0._interval.toNat, true) }) := by
  induction n with
  | zero => intro j s _ _ _ _; rfl
  | succ n ih =>
    intro j s hint hcr hls hno
    have hpos : 0 < s0._interval.toNat := by omega
    have hmul : (j + 1) * s0._interval.toNat = j * s0._interval.toNat + s0._interval.toNat :=
      Nat.succ_mul _ _
    have hle : (j + 1) * s0._interval.toNat ≤ (j + (n + 1)) * s0._interval.toNat :=
      Nat.mul_le_mul_right _ (by omega)
    have hiv : s.interval_us (mult j) = s0._interval.toNat := by
      rw [interval_us_const s (mult j) hcr (by rw [hint]; exact le_of_lt hi)
        (by rw [hint]; exact h24), hint]
    have hstep : s.update (mult j) (s0._last_sent + (j + 1) * s0._interval.toNat)
        (fun _ => true)
        = { stream := { s0 with
              _last_sent := s0._last_sent + (j + 1) * s0._interval.toNat
              _first_message_sent := true }
            ret := 0
            send_call := some (s0._last_sent + (j + 1) * s0._interval.toNat, true) } := by
      rw [update_due_success s (mult j) _ (fun _ => true) (by rw [hint]; exact hi)
        (by rw [hls]; omega) (by omega) (by rw [hiv, hls]; omega) rfl, hiv]
      have hsum : s._last_sent + s0._interval.toNat
          = s0._last_sent + (j + 1) * s0._interval.toNat := by rw [hls]; omega
      rw [hsum, constrain_upper _ _ (Nat.sub_le _ _)]
      cases s with
      | mk i l f c =>
        simp only at hint hcr
        subst hint
        simp [hcr, hc]
    rw [List.range'_succ, List.map_cons, List.map_cons, MavlinkStream.run, hstep]
    congr 1
    exact ih (j + 1) _ rfl hc rfl (by rw [show j + 1 + n = j + (n + 1) by omega]; exact hno)

/-- No drift on evenly spaced ticks when the interval is a `float` value.  For a const-rate
stream with `0 < _interval < 2 ^ 24` and `_last_sent = T ≠ 0`, when `update` is called at
`T + _interval`, ..., `T + n * _interval` (64-bit times) and every `send` succeeds, each of
the `n` calls emits and returns 0, and after the `k`-th call `_last_sent = T + k * _interval`. -/
theorem no_drift_even_ticks_of_exact (s : MavlinkStream) (mult : Nat → ℚ) (n : Nat)
    (hc : s.const_rate = true) (hi : 0 < s._interval) (h24 : s._interval < 2 ^ 24)
    (hl : s._last_sent ≠ 0)
    (hno : s._last_sent + n * s._interval.toNat < UINT64_SIZE) :
    s.run (evenTicks s._last_sent s._interval.toNat mult n)
      = (List.range n).map (fun k =>
          { stream := { s with
              _last_sent := s._last_sent + (k + 1) * s._interval.toNat
              _first_message_sent := true }
            ret := 0
            send_call := some (s._last_sent + (k + 1) * s._interval.toNat, true) }) := by
  unfold evenTicks
  rw [List.range_eq_range']
  exact run_even_from s mult hc hi h24 hl n 0 s rfl hc (by simp) (by simpa using hno)

/-- C4 at a failing input: the const-rate stream with `_interval` = 16777217 and
`_last_sent` = T = 5000000 is polled at `T + _interval` = 21777217 and at
`T + 2 * _interval` = 38554434, every `send` succeeding.  Both calls emit, but the interval
went through `float` and became 16777216: the stored `_last_sent` is 21777216 and then
38554432, one and two microseconds short of `T + k * _interval`. -/
theorem C4_drift_after_rounding :
    sampleSlow.const_rate = true ∧ 0 < sampleSlow._interval ∧ sampleSlow._last_sent ≠ 0
      ∧ evenTicks sampleSlow._last_sent sampleSlow._interval.toNat (fun _ => 1) 2
          = [⟨21777217, 1, true⟩, ⟨38554434, 1, true⟩]
      ∧ (sampleSlow.run
            (evenTicks sampleSlow._last_sent sampleSlow._interval.toNat (fun _ => 1) 2)).map
          (fun r => (r.ret, r.stream._last_sent)) = [(0, 21777216), (0, 38554432)] := by
  have hticks : evenTicks sampleSlow._last_sent sampleSlow._interval.toNat (fun _ => 1) 2
      = [⟨21777217, 1, true⟩, ⟨38554434, 1, true⟩] := rfl
  have h1 : sampleSlow.update 1 21777217 (fun _ => true)
      = { stream := { sampleSlow with _last_sent := 21777216, _first_message_sent := true }
          ret := 0
          send_call := some (21777217, true) } := by
    rw [sampleSlow_update 1 21777217 (fun _ => true) (by decide)]
    decide
  have hiv : MavlinkStream.interval_us
      { sampleSlow with _last_sent := 21777216, _first_message_sent := true } 1 = 16777216 :=
    (interval_us_congr _ sampleSlow 1 rfl rfl).trans (sampleSlow_interval_us 1)
  have h2 : MavlinkStream.update
      { sampleSlow with _last_sent := 21777216, _first_message_sent := true } 1 38554434
        (fun _ => true)
      = { stream := { sampleSlow with _last_sent := 38554432, _first_message_sent := true }
          ret := 0
          send_call := some (38554434, true) } := by
    rw [update_of_interval_us _ 1 38554434 (fun _ => true) 16777216 hiv (by decide)
      (by decide) (by decide) (by decide)]
    decide
  refine ⟨rfl, by decide, by decide, hticks, ?_⟩
  rw [hticks]
  simp only [MavlinkStream.run, h1, h2]
  decide

/-! ## A second call at the same clock reading -/

/-- What the always-due branch stores in `_last_sent` when the call emits. -/
theorem update_never_sent_last_sent (s : MavlinkStream) (m : ℚ) (t : Nat)
    (send : Nat → Bool) (hne : s._interval ≠ 0) (hl0 : s._last_sent = 0)
    (hfirst : (s.update m t send).emitted = true) :
    (s.update m t send).stream._last_sent = t := by
  revert hfirst
  unfold MavlinkStream.update
  rw [if_neg hne, if_pos (Or.inr hl0)]
  by_cases hs : send t = true
  · rw [if_pos hs]
    intro _
    rfl
  · rw [if_neg hs]
    simp [UpdateResult.emitted]

/-- In the scheduled branch without wrap-around, a call that emits had reached its deadline
and `send` answered true. -/
theorem due_of_emitted (s : MavlinkStream) (m : ℚ) (t : Nat) (send : Nat → Bool)
    (hi : 0 < s._interval) (hl : s._last_sent ≠ 0) (ht : t < UINT64_SIZE)
    (hno : s._last_sent + s.interval_us m < UINT64_SIZE)
    (hfirst : (s.update m t send).emitted = true) :
    s._last_sent + s.interval_us m ≤ t ∧ send t = true := by
  rw [update_scheduled s m t send hi hl ht hno] at hfirst
  by_cases hdue : s._last_sent + s.interval_us m ≤ t
  · rw [if_pos hdue] at hfirst
    by_cases hs : send t = true
    · exact ⟨hdue, hs⟩
    · rw [if_neg hs] at hfirst
      simp [UpdateResult.emitted] at hfirst
  · rw [if_neg hdue] at hfirst
    simp [UpdateResult.emitted] at hfirst

/-- C5, as the code has it.  For a stream with `_interval > 0` and a 64-bit clock reading
`t` at which `update` emits: if the stream had never sent (`_last_sent = 0`, with `t > 0` and
a positive effective interval), or the tick came less than one effective interval after
the deadline (`t < _last_sent + 2 * interval_us`), then a second `update` at the same `t`
with the same rate multiplier, whatever `send` would answer, does not call `send`, leaves the
object unchanged and returns -1.  When the tick came one effective interval or more after
the deadline, the stored `_last_sent` is `t - interval_us` and the second call is due again:
it calls `send`. -/
theorem C5_second_call_same_tick (s : MavlinkStream) (m : ℚ) (t : Nat)
    (send send2 : Nat → Bool)
    (hi : 0 < s._interval) (ht : t < UINT64_SIZE)
    (hfirst : (s.update m t send).emitted = true) :
    (((s._last_sent = 0 ∧ 0 < t ∧ 0 < s.interval_us m ∧ t + s.interval_us m < UINT64_SIZE)
          ∨ (s._last_sent ≠ 0 ∧ t < s._last_sent + 2 * s.interval_us m
              ∧ s._last_sent + 2 * s.interval_us m < UINT64_SIZE)) →
        ((s.update m t send).stream.update m t send2).send_call = none
          ∧ ((s.update m t send).stream.update m t send2).stream = (s.update m t send).stream
          ∧ ((s.update m t send).stream.update m t send2).ret = -1)
      ∧ (s._last_sent ≠ 0 → s._last_sent + 2 * s.interval_us m ≤ t →
          (s.update m t send).stream._last_sent = t - s.interval_us m
            ∧ ((s.update m t send).stream.update m t send2).send_call = some (t, send2 t)) := by
  have hne : s._interval ≠ 0 := ne_of_gt hi
  have hcfg := update_keeps_config s m t send
  have hi1 : 0 < (s.update m t send).stream._interval := by rw [hcfg.1]; exact hi
  have hiv : (s.update m t send).stream.interval_us m = s.interval_us m :=
    interval_us_congr _ _ m hcfg.1 hcfg.2
  constructor
  · rintro (⟨hl0, htpos, hepos, hno⟩ | ⟨hl, hlt, hno⟩)
    · -- never sent: the first call stores the clock reading
      have hls := update_never_sent_last_sent s m t send hne hl0 hfirst
      rw [update_scheduled _ m t send2 hi1 (by rw [hls]; omega) ht (by rw [hls, hiv]; exact hno),
        if_neg (by rw [hls, hiv]; omega)]
      exact ⟨rfl, rfl, rfl⟩
    · -- scheduled: the first call stores the deadline itself
      have hno1 : s._last_sent + s.interval_us m < UINT64_SIZE := by omega
      obtain ⟨hdue, hsend⟩ := due_of_emitted s m t send hi hl ht hno1 hfirst
      have hcl : math.constrain (s._last_sent + s.interval_us m) (t - s.interval_us m) t
          = s._last_sent + s.interval_us m := by
        unfold math.constrain
        rw [if_neg (by omega), if_neg (by omega)]
      have hls : (s.update m t send).stream._last_sent = s._last_sent + s.interval_us m := by
        rw [update_due_success s m t send hi hl ht hdue hsend]
        exact hcl
      rw [update_scheduled _ m t send2 hi1 (by rw [hls]; omega) ht (by rw [hls, hiv]; omega),
        if_neg (by rw [hls, hiv]; omega)]
      exact ⟨rfl, rfl, rfl⟩
  · intro hl hlate
    have hdue : s._last_sent + s.interval_us m ≤ t := by omega
    obtain ⟨_, hsend⟩ := due_of_emitted s m t send hi hl ht (lt_of_le_of_lt hdue ht) hfirst
    have hcl : math.constrain (s._last_sent + s.interval_us m) (t - s.interval_us m) t
        = t - s.interval_us m := by
      unfold math.constrain
      by_cases h : s._last_sent + s.interval_us m < t - s.interval_us m
      · rw [if_pos h]
      · rw [if_neg h, if_neg (by omega)]
        omega
    have hls : (s.update m t send).stream._last_sent = t - s.interval_us m := by
      rw [update_due_success s m t send hi hl ht hdue hsend]
      exact hcl
    refine ⟨hls, ?_⟩
    rw [update_scheduled _ m t send2 hi1 (by rw [hls]; omega) ht (by rw [hls, hiv]; omega),
      if_pos (by rw [hls, hiv]; omega)]
    by_cases hs2 : send2 t = true
    · rw [if_pos hs2, hs2]
    · rw [if_neg hs2]
      have hf : send2 t = false := by simpa using hs2
      rw [hf]

/-- Witness for C5: the const-rate sample polled twice, 1.5 s after it last sent. -/
theorem C5_second_call_same_tick_witness :
    ((sampleConst.update 1 6500000 sendOk).stream.update 1 6500000 sendOk).send_call = none
      ∧ ((sampleConst.update 1 6500000 sendOk).stream.update 1 6500000 sendOk).stream
          = (sampleConst.update 1 6500000 sendOk).stream
      ∧ ((sampleConst.update 1 6500000 sendOk).stream.update 1 6500000 sendOk).ret = -1 :=
  (C5_second_call_same_tick sampleConst 1 6500000 sendOk sendOk (by decide) (by decide)
    (by rw [sampleConst_update 1 6500000 sendOk (by decide)]; decide)).1
    (Or.inr ⟨by decide, by rw [sampleConst_interval_us]; decide,
      by rw [sampleConst_interval_us]; decide⟩)

/-- Counterexample to C5 as stated: the const-rate sample (1 s interval, last sent at 5 s)
is polled at 7 s, two intervals late.  The first call emits and stores 6 s; the second call
at the same 7 s finds the deadline 6 s + 1 s reached, calls `send` again and changes the
object. -/
theorem C5_counterexample :
    0 < sampleConst._interval
      ∧ (sampleConst.update 1 7000000 sendOk).emitted = true
      ∧ (sampleConst.update 1 7000000 sendOk).stream._last_sent = 6000000
      ∧ ((sampleConst.update 1 7000000 sendOk).stream.update 1 7000000 sendOk).send_call
          = some (7000000, true)
      ∧ ((sampleConst.update 1 7000000 sendOk).stream.update 1 7000000 sendOk).stream
          ≠ (sampleConst.update 1 7000000 sendOk).stream := by
  have h1 : sampleConst.update 1 7000000 sendOk
      = { stream := scenarioStream 6000000 true, ret := 0,
          send_call := some (7000000, true) } := by
    rw [sampleConst_update 1 7000000 sendOk (by decide)]
    decide
  rw [h1]
  dsimp only
  rw [scenarioStream_update 6000000 true 1 7000000 sendOk (by decide) (by decide) (by decide)]
  decide

/-! ## The first-message flag -/

/-- C16: `_first_message_sent` is a latch.  For every stream and every call of `update`,
the flag is true after the call exactly when it was true before or the call invoked `send`
and `send` returned true; in particular `update` never resets it to false. -/
theorem C16_first_sent_latch (s : MavlinkStream) (m : ℚ) (t : Nat) (send : Nat → Bool) :
    ((s.update m t send).stream._first_message_sent = true
        ↔ (s._first_message_sent = true ∨ (s.update m t send).emitted = true))
      ∧ (s._first_message_sent = true →
          (s.update m t send).stream._first_message_sent = true) := by
  have key : (s.update m t send).stream._first_message_sent
      = (s._first_message_sent || (s.update m t send).emitted) := by
    unfold MavlinkStream.update
    by_cases h0 : s._interval = 0
    · rw [if_pos h0]
      simp [UpdateResult.emitted]
    · rw [if_neg h0]
      by_cases hbr : s._interval < 0 ∨ s._last_sent = 0
      · rw [if_pos hbr]
        by_cases hs : send t = true
        · rw [if_pos hs]
          cases hf : s._first_message_sent <;> simp [UpdateResult.emitted]
        · rw [if_neg hs]
          simp [UpdateResult.emitted]
      · rw [if_neg hbr]
        dsimp only
        by_cases hd : t ≥ (s._last_sent + s.interval_us m) % UINT64_SIZE
        · rw [if_pos hd]
          by_cases hs : send t = true
          · rw [if_pos hs]
            cases hf : s._first_message_sent <;> simp [UpdateResult.emitted]
          · rw [if_neg hs]
            simp [UpdateResult.emitted]
        · rw [if_neg hd]
          simp [UpdateResult.emitted]
  rw [key]
  constructor
  · simp
  · intro h
    simp [h]

/-- Witness for C16: the flag of the const-rate sample is set by its first emission, stays
unset while nothing is emitted, and the flag of the variable-rate sample survives a failed
`send`. -/
theorem C16_first_sent_latch_witness :
    (sampleConst.update 1 6000000 sendOk).stream._first_message_sent = true
      ∧ (sampleConst.update 1 5999999 sendOk).stream._first_message_sent = false
      ∧ (sampleVar.update 1 6000000 sendFail).stream._first_message_sent = true :=
  ⟨(C16_first_sent_latch sampleConst 1 6000000 sendOk).1.mpr
      (Or.inr (by rw [sampleConst_update 1 6000000 sendOk (by decide)]; decide)),
    by rw [sampleConst_update 1 5999999 sendOk (by decide)]; decide,
    (C16_first_sent_latch sampleVar 1 6000000 sendFail).2 rfl⟩

/-! ## Retrying after a failed emission -/

/-- C15: retry at the next tick.  For a stream with `_interval > 0` and `_last_sent ≠ 0`
whose deadline is reached at `t`, if `send` fails at `t` then an `update` at any 64-bit time
`t2 ≥ t` with the same rate multiplier is due again and calls `send`; the result of that call
(object, returned value, record of the call) is the result of a single `update` at `t2` on
the original object, so after a successful `send` it stores the same clamped `_last_sent`
and returns 0. -/
theorem C15_retry_next_tick (s : MavlinkStream) (m : ℚ) (t t2 : Nat)
    (send send2 : Nat → Bool)
    (hi : 0 < s._interval) (hl : s._last_sent ≠ 0)
    (hdue : s._last_sent + s.interval_us m ≤ t) (hfail : send t = false)
    (hlater : t ≤ t2) (ht2 : t2 < UINT64_SIZE) :
    (s.update m t send).send_call = some (t, false)
      ∧ ((s.update m t send).stream.update m t2 send2).send_call = some (t2, send2 t2)
      ∧ (s.update m t send).stream.update m t2 send2 = s.update m t2 send2
      ∧ (send2 t2 = true →
          ((s.update m t send).stream.update m t2 send2).ret = 0
            ∧ ((s.update m t send).stream.update m t2 send2).stream._last_sent
                = math.constrain (s._last_sent + s.interval_us m) (t2 - s.interval_us m) t2) := by
  have ht : t < UINT64_SIZE := lt_of_le_of_lt hlater ht2
  have hdue2 : s._last_sent + s.interval_us m ≤ t2 := le_trans hdue hlater
  have hno : s._last_sent + s.interval_us m < UINT64_SIZE := lt_of_le_of_lt hdue ht
  have h1 : s.update m t send = { stream := s, ret := -1, send_call := some (t, false) } := by
    rw [update_scheduled s m t send hi hl ht hno, if_pos hdue, hfail]
    simp
  rw [h1]
  refine ⟨rfl, ?_, rfl, ?_⟩
  · show (s.update m t2 send2).send_call = some (t2, send2 t2)
    rw [update_scheduled s m t2 send2 hi hl ht2 hno, if_pos hdue2]
    by_cases hs : send2 t2 = true
    · rw [if_pos hs, hs]
    · rw [if_neg hs]
      have hf : send2 t2 = false := by simpa using hs
      rw [hf]
  · intro hs
    show (s.update m t2 send2).ret = 0 ∧ (s.update m t2 send2).stream._last_sent = _
    rw [update_due_success s m t2 send2 hi hl ht2 hdue2 hs]
    exact ⟨rfl, rfl⟩

/-- Witness for C15: `send` fails at the 6 s deadline of the const-rate sample and succeeds
a quarter of a second later. -/
theorem C15_retry_next_tick_witness :
    (sampleConst.update 1 6000000 sendFail).send_call = some (6000000, false)
      ∧ ((sampleConst.update 1 6000000 sendFail).stream.update 1 6250000 sendOk).send_call
          = some (6250000, true)
      ∧ (sampleConst.update 1 6000000 sendFail).stream.update 1 6250000 sendOk
          = sampleConst.update 1 6250000 sendOk
      ∧ ((sampleConst.update 1 6000000 sendFail).stream.update 1 6250000 sendOk).ret = 0
      ∧ ((sampleConst.update 1 6000000 sendFail).stream.update 1 6250000 sendOk).stream._last_sent
          = 6000000 :=
  have h := C15_retry_next_tick sampleConst 1 6000000 6250000 sendFail sendOk (by decide)
    (by decide) (by rw [sampleConst_interval_us]; decide) rfl (by decide) (by decide)
  ⟨h.1, h.2.1, h.2.2.1, (h.2.2.2 rfl).1,
    by rw [h.2.2.1, sampleConst_update 1 6250000 sendOk (by decide)]; decide⟩

/-! ## The clamp -/

/-- C18: the clamp is well formed and its upper bound never binds.  When the scheduled
branch reaches the `constrain` call (`t >= _last_sent + interval_us` holds in 64-bit
arithmetic, the sum not overflowing), the subtraction `t - interval_us` does not wrap, the
bounds satisfy `t - interval_us ≤ t`, the clamped value `_last_sent + interval_us` is at most
`t`, and the stored `_last_sent` is the larger of `_last_sent + interval_us` and
`t - interval_us`. -/
theorem C18_clamp_well_formed (s : MavlinkStream) (m : ℚ) (t : Nat) (send : Nat → Bool)
    (hi : 0 < s._interval) (hl : s._last_sent ≠ 0) (ht : t < UINT64_SIZE)
    (hno : s._last_sent + s.interval_us m < UINT64_SIZE)
    (hreach : t ≥ (s._last_sent + s.interval_us m) % UINT64_SIZE) (hsend : send t = true) :
    s.interval_us m ≤ t
      ∧ (t + UINT64_SIZE - s.interval_us m) % UINT64_SIZE = t - s.interval_us m
      ∧ t - s.interval_us m ≤ t
      ∧ (s._last_sent + s.interval_us m) % UINT64_SIZE ≤ t
      ∧ s._last_sent + s.interval_us m ≤ t
      ∧ (s.update m t send).stream._last_sent
          = max (s._last_sent + s.interval_us m) (t - s.interval_us m) := by
  have hdue : s._last_sent + s.interval_us m ≤ t := by
    rw [Nat.mod_eq_of_lt hno] at hreach
    exact hreach
  have hle : s.interval_us m ≤ t := le_trans (Nat.le_add_left _ _) hdue
  have hsub : (t + UINT64_SIZE - s.interval_us m) % UINT64_SIZE = t - s.interval_us m := by
    have : t + UINT64_SIZE - s.interval_us m = (t - s.interval_us m) + UINT64_SIZE := by omega
    rw [this, Nat.add_mod_right]
    exact Nat.mod_eq_of_lt (lt_of_le_of_lt (Nat.sub_le _ _) ht)
  refine ⟨hle, hsub, Nat.sub_le _ _, hreach, hdue, ?_⟩
  rw [update_due_success s m t send hi hl ht hdue hsend]
  show math.constrain _ _ _ = _
  unfold math.constrain
  by_cases h : s._last_sent + s.interval_us m < t - s.interval_us m
  · rw [if_pos h, max_eq_right (le_of_lt h)]
  · rw [if_neg h, if_neg (not_lt.mpr hdue), max_eq_left (not_lt.mp h)]

/-- Witness for C18: the variable-rate sample at half rate, polled twelve seconds after it
last sent. -/
theorem C18_clamp_well_formed_witness :
    sampleVar.interval_us (1 / 2) ≤ 17000000
      ∧ (sampleVar.update (1 / 2) 17000000 sendOk).stream._last_sent
          = max (sampleVar._last_sent + sampleVar.interval_us (1 / 2))
              (17000000 - sampleVar.interval_us (1 / 2)) :=
  have h := C18_clamp_well_formed sampleVar (1 / 2) 17000000 sendOk (by decide) (by decide)
    (by decide) (by rw [sampleVar_interval_us_half]; decide)
    (by rw [sampleVar_interval_us_half]; decide) rfl
  ⟨h.1, h.2.2.2.2.2⟩

/-! ## Const-rate streams and the rate multiplier -/

/-- Two calls of `update` on a const-rate stream that differ only in the rate multiplier give
the same result (same decision, same object), whatever the interval. -/
theorem update_const_indep (s : MavlinkStream) (m1 m2 : ℚ) (t : Nat) (send : Nat → Bool)
    (hc : s.const_rate = true) : s.update m1 t send = s.update m2 t send := by
  unfold MavlinkStream.update
  rw [interval_us_const_indep s m1 m2 hc]

/-- C12 at a failing input: the const-rate stream with `_interval` = 16777217
(`2 ^ 24 + 1`) and `_last_sent` = 5000000.  The conditional expression converts `_interval`
to `float`, so the effective interval is 16777216, not `_interval`: the call at 21777216,
one microsecond before `_last_sent + _interval`, is due, calls `send` and stores 21777216. -/
theorem C12_interval_rounded :
    sampleSlow.const_rate = true ∧ 0 < sampleSlow._interval ∧ sampleSlow._last_sent ≠ 0
      ∧ sampleSlow.interval_us 1 = 16777216
      ∧ (sampleSlow.interval_us 1 : Int) ≠ sampleSlow._interval
      ∧ 21777216 < sampleSlow._last_sent + sampleSlow._interval.toNat
      ∧ (sampleSlow.update 1 21777216 sendOk).send_call = some (21777216, true)
      ∧ (sampleSlow.update 1 21777216 sendOk).stream._last_sent = 21777216 := by
  refine ⟨rfl, by decide, by decide, sampleSlow_interval_us 1, ?_, by decide, ?_, ?_⟩
  · rw [sampleSlow_interval_us 1]
    decide
  · rw [sampleSlow_update 1 21777216 sendOk (by decide)]
    decide
  · rw [sampleSlow_update 1 21777216 sendOk (by decide)]
    decide

/-! ## The 1 Hz scenario -/

/-- C13: the concrete scenario.  With `_interval = 1000000`, `const_rate` true,
`_last_sent = T` and every `send` succeeding: `update` at `T + 1000000` sends and stores
`T + 1000000`; `update` at `T + 1999999` does not send and leaves `T + 1000000`; `update` at
`T + 3500000` sends and stores `T + 2500000`. -/
theorem C13_scenario_1hz (T : Nat) (first_sent : Bool) (m1 m2 m3 : ℚ)
    (hT : T + 3500000 < UINT64_SIZE) :
    (scenarioStream T first_sent).run
        [⟨T + 1000000, m1, true⟩, ⟨T + 1999999, m2, true⟩, ⟨T + 3500000, m3, true⟩]
      = [{ stream := scenarioStream (T + 1000000) true, ret := 0,
           send_call := some (T + 1000000, true) },
         { stream := scenarioStream (T + 1000000) true, ret := -1, send_call := none },
         { stream := scenarioStream (T + 2500000) true, ret := 0,
           send_call := some (T + 3500000, true) }] := by
  have he : ∀ (x : Nat) (f : Bool) (m : ℚ), (scenarioStream x f).interval_us m = 1000000 :=
    scenarioStream_interval_us
  have hpos : ∀ (x : Nat) (f : Bool), 0 < (scenarioStream x f)._interval := by
    intro x f
    show (0 : Int) < 1000000
    decide
  have hls : ∀ (x : Nat) (f : Bool), (scenarioStream x f)._last_sent = x := fun _ _ => rfl
  -- the first call
  have h1 : (scenarioStream T first_sent).update m1 (T + 1000000) (fun _ => true)
      = { stream := scenarioStream (T + 1000000) true, ret := 0,
          send_call := some (T + 1000000, true) } := by
    by_cases h0 : T = 0
    · subst h0
      unfold MavlinkStream.update
      have hbr : (scenarioStream 0 first_sent)._interval < 0
          ∨ (scenarioStream 0 first_sent)._last_sent = 0 := Or.inr rfl
      rw [if_neg (ne_of_gt (hpos 0 first_sent)), if_pos hbr]
      cases first_sent <;> rfl
    · rw [update_due_success _ m1 _ (fun _ => true) (hpos T first_sent) h0 (by omega)
        (by rw [he, hls]) rfl, he, hls, constrain_upper _ _ (Nat.sub_le _ _)]
      rfl
  -- the second call
  have h2 : (scenarioStream (T + 1000000) true).update m2 (T + 1999999) (fun _ => true)
      = { stream := scenarioStream (T + 1000000) true, ret := -1, send_call := none } := by
    rw [update_scheduled _ m2 _ (fun _ => true) (hpos _ _) (by rw [hls]; omega) (by omega)
      (by rw [he, hls]; omega), he, hls, if_neg (by omega)]
  -- the third call
  have h3 : (scenarioStream (T + 1000000) true).update m3 (T + 3500000) (fun _ => true)
      = { stream := scenarioStream (T + 2500000) true, ret := 0,
          send_call := some (T + 3500000, true) } := by
    rw [update_due_success _ m3 _ (fun _ => true) (hpos _ _) (by rw [hls]; omega) hT
      (by rw [he, hls]; omega) rfl, he, hls]
    have hcl : math.constrain (T + 1000000 + 1000000) (T + 3500000 - 1000000) (T + 3500000)
        = T + 2500000 := by
      unfold math.constrain
      rw [if_pos (by omega)]
      omega
    rw [hcl]
    rfl
  simp only [MavlinkStream.run, h1, h2, h3]

/-- Witness for C13: the scenario with `T` at five seconds. -/
theorem C13_scenario_1hz_witness :
    (scenarioStream 5000000 false).run
        [⟨5000000 + 1000000, 1, true⟩, ⟨5000000 + 1999999, 1, true⟩,
          ⟨5000000 + 3500000, 1, true⟩]
      = [{ stream := scenarioStream (5000000 + 1000000) true, ret := 0,
           send_call := some (5000000 + 1000000, true) },
         { stream := scenarioStream (5000000 + 1000000) true, ret := -1, send_call := none },
         { stream := scenarioStream (5000000 + 2500000) true, ret := 0,
           send_call := some (5000000 + 3500000, true) }] :=
  C13_scenario_1hz 5000000 false 1 1 1 (by decide)

/-! ## Startup -/

/-- Before the deadline a scheduled const-rate stream whose interval is a `float` value
answers every tick of a run with -1, without calling `send`, and the run continues from the
same object. -/
theorem run_before_deadline (s : MavlinkStream) (hc : s.const_rate = true)
    (hi : 0 < s._interval) (h24 : s._interval < 2 ^ 24) (hl : s._last_sent ≠ 0)
    (hno : s._last_sent + s._interval.toNat < UINT64_SIZE) (rest : List Tick) :
    ∀ pre : List Tick, (∀ x ∈ pre, x.now < s._last_sent + s._interval.toNat) →
      s.run (pre ++ rest)
        = pre.map (fun _ => { stream := s, ret := -1, send_call := none }) ++ s.run rest := by
  intro pre
  induction pre with
  | nil => intro _; rfl
  | cons x xs ih =>
    intro hpre
    have hx := hpre x (List.mem_cons_self _ _)
    have hiv : s.interval_us x.rate_mult = s._interval.toNat :=
      interval_us_const s x.rate_mult hc (le_of_lt hi) h24
    have hstep : s.update x.rate_mult x.now (fun _ => x.send_ok)
        = { stream := s, ret := -1, send_call := none } := by
      rw [update_scheduled s _ _ _ hi hl (lt_trans hx hno) (by rw [hiv]; exact hno), hiv,
        if_neg (not_le.mpr hx)]
    rw [List.cons_append, MavlinkStream.run, hstep, List.map_cons, List.cons_append]
    congr 1
    exact ih (fun y hy => hpre y (List.mem_cons_of_mem _ hy))

/-- Startup timing when the interval is a `float` value.  A stream constructed at clock
time `T0 > 0` has `_last_sent = T0`.  With `0 < _interval < 2 ^ 24` and `const_rate` true, no
`update` at a time before `T0 + _interval` calls `send` (each returns -1 and leaves the
object as constructed), and the first `update` at a 64-bit time at or after `T0 + _interval`
does call `send`. -/
theorem startup_timing_of_exact (T0 : Nat) (interval : Int) (pre : List Tick) (k : Tick)
    (hT0 : 0 < T0) (hi : 0 < interval) (h24 : interval < 2 ^ 24)
    (hno : T0 + interval.toNat < UINT64_SIZE)
    (hpre : ∀ x ∈ pre, x.now < T0 + interval.toNat)
    (hk : T0 + interval.toNat ≤ k.now) (hk64 : k.now < UINT64_SIZE) :
    (MavlinkStream.construct T0 interval true)._last_sent = T0
      ∧ (MavlinkStream.construct T0 interval true).run (pre ++ [k])
          = pre.map (fun _ =>
              { stream := MavlinkStream.construct T0 interval true, ret := -1,
                send_call := none })
            ++ [(MavlinkStream.construct T0 interval true).update k.rate_mult k.now
                  (fun _ => k.send_ok)]
      ∧ ((MavlinkStream.construct T0 interval true).update k.rate_mult k.now
            (fun _ => k.send_ok)).send_call = some (k.now, k.send_ok) := by
  have hl : (MavlinkStream.construct T0 interval true)._last_sent ≠ 0 :=
    Nat.pos_iff_ne_zero.mp hT0
  have hi2 : 0 < (MavlinkStream.construct T0 interval true)._interval := hi
  have h242 : (MavlinkStream.construct T0 interval true)._interval < 2 ^ 24 := h24
  have hiv : (MavlinkStream.construct T0 interval true).interval_us k.rate_mult
      = interval.toNat :=
    interval_us_const _ k.rate_mult rfl (le_of_lt hi) h24
  refine ⟨rfl, ?_, ?_⟩
  · rw [run_before_deadline _ rfl hi2 h242 hl hno [k] pre hpre]
    rfl
  · rw [update_scheduled _ _ _ _ hi2 hl hk64 (by rw [hiv]; exact hno), hiv]
    show (if T0 + interval.toNat ≤ k.now then _ else _ : UpdateResult).send_call = _
    rw [if_pos hk]
    cases k.send_ok <;> rfl

/-- C17 at a failing input: a const-rate stream constructed at `T0` = 5000000 with
`_interval` = 16777217 has `_last_sent = T0`, and its `update` at 21777216, one microsecond
before `T0 + _interval`, calls `send`: the interval went through `float` and became
16777216. -/
theorem C17_early_send_after_rounding :
    0 < 5000000
      ∧ (MavlinkStream.construct 5000000 16777217 true)._last_sent = 5000000
      ∧ 0 < (MavlinkStream.construct 5000000 16777217 true)._interval
      ∧ (MavlinkStream.construct 5000000 16777217 true).const_rate = true
      ∧ 21777216 < 5000000 + 16777217
      ∧ ((MavlinkStream.construct 5000000 16777217 true).update 1 21777216 sendOk).send_call
          = some (21777216, true)
      ∧ ((MavlinkStream.construct 5000000 16777217 true).update 1 21777216 sendOk).ret = 0 := by
  have hs : MavlinkStream.construct 5000000 16777217 true = sampleSlow := rfl
  rw [hs, sampleSlow_update 1 21777216 sendOk (by decide)]
  decide

/-! ## Monotonicity of `_last_sent` -/

/-- One call at a clock reading not before `_last_sent`: the stored time does not decrease
and does not pass the clock.  For a scheduled stream the deadline is a 64-bit time. -/
theorem update_last_sent_bounds (s : MavlinkStream) (m : ℚ) (t : Nat) (send : Nat → Bool)
    (hle : s._last_sent ≤ t) (ht : t < UINT64_SIZE)
    (hno : 0 < s._interval → s._last_sent + s.interval_us m < UINT64_SIZE) :
    s._last_sent ≤ (s.update m t send).stream._last_sent
      ∧ (s.update m t send).stream._last_sent ≤ t := by
  by_cases h0 : s._interval = 0
  · rw [update_disabled s m t send h0]
    exact ⟨le_refl _, hle⟩
  · by_cases hbr : s._interval < 0 ∨ s._last_sent = 0
    · unfold MavlinkStream.update
      rw [if_neg h0, if_pos hbr]
      by_cases hs : send t = true
      · rw [if_pos hs]
        exact ⟨hle, le_refl _⟩
      · rw [if_neg hs]
        exact ⟨le_refl _, hle⟩
    · have hi : 0 < s._interval := by
        rcases lt_trichotomy s._interval 0 with h | h | h
        · exact absurd (Or.inl h) hbr
        · exact absurd h h0
        · exact h
      have hl : s._last_sent ≠ 0 := fun h => hbr (Or.inr h)
      rw [update_scheduled s m t send hi hl ht (hno hi)]
      by_cases hdue : s._last_sent + s.interval_us m ≤ t
      · rw [if_pos hdue]
        by_cases hs : send t = true
        · rw [if_pos hs]
          have hb := constrain_mem (s._last_sent + s.interval_us m) (t - s.interval_us m) t
            (Nat.sub_le _ _)
          refine ⟨?_, hb.2⟩
          show s._last_sent
            ≤ math.constrain (s._last_sent + s.interval_us m) (t - s.interval_us m) t
          unfold math.constrain
          split
          · omega
          · split <;> omega
        · rw [if_neg hs]
          exact ⟨le_refl _, hle⟩
      · rw [if_neg hdue]
        exact ⟨le_refl _, hle⟩

/-- Over a run at non-decreasing clock readings that start at or after `_last_sent`, each
stored `_last_sent` is at least the one before. -/
theorem run_last_sent_chain (ticks : List Tick) :
    ∀ s : MavlinkStream,
      List.Chain (fun a b => a ≤ b) s._last_sent (ticks.map (fun k => k.now)) →
      (∀ k ∈ ticks, k.now < UINT64_SIZE
        ∧ (0 < s._interval → k.now + s.interval_us k.rate_mult < UINT64_SIZE)) →
      List.Chain (fun a b => a ≤ b) s._last_sent
        ((s.run ticks).map (fun r => r.stream._last_sent)) := by
  induction ticks with
  | nil => intro s _ _; exact List.Chain.nil
  | cons k ks ih =>
    intro s hch hfit
    rw [List.map_cons, List.chain_cons] at hch
    obtain ⟨hle, hrest⟩ := hch
    have hk := hfit k (List.mem_cons_self _ _)
    have hb := update_last_sent_bounds s k.rate_mult k.now (fun _ => k.send_ok) hle hk.1
      (fun hi => lt_of_le_of_lt (Nat.add_le_add_right hle _) (hk.2 hi))
    have hcfg := update_keeps_config s k.rate_mult k.now (fun _ => k.send_ok)
    rw [MavlinkStream.run, List.map_cons, List.chain_cons]
    refine ⟨hb.1, ih _ ?_ ?_⟩
    · cases hks : ks.map (fun k => k.now) with
      | nil => exact List.Chain.nil
      | cons a as =>
        rw [hks, List.chain_cons] at hrest
        exact List.Chain.cons (le_trans hb.2 hrest.1) hrest.2
    · intro x hx
      have hxx := hfit x (List.mem_cons_of_mem _ hx)
      refine ⟨hxx.1, fun hi => ?_⟩
      rw [interval_us_congr _ s x.rate_mult hcfg.1 hcfg.2]
      exact hxx.2 (by rw [← hcfg.1]; exact hi)

/-- C11: `_last_sent` is monotonically non-decreasing.  For a stream with `_last_sent ≤ t`
and any call of `update` at the 64-bit time `t` (any interval, any outcome of `send`, any
rate multiplier; for a scheduled stream the deadline `_last_sent + interval_us` is a 64-bit
time), the new `_last_sent` is at least the old one; hence over any further calls at
non-decreasing times the successive values of `_last_sent` never decrease. -/
theorem C11_last_sent_monotone (s : MavlinkStream) (m : ℚ) (t : Nat) (send : Nat → Bool)
    (ticks : List Tick)
    (hle : s._last_sent ≤ t) (ht : t < UINT64_SIZE)
    (hno : 0 < s._interval → s._last_sent + s.interval_us m < UINT64_SIZE)
    (hmono : List.Pairwise (fun a b => a ≤ b) (t :: ticks.map (fun k => k.now)))
    (hfit : ∀ k ∈ ticks, k.now < UINT64_SIZE
      ∧ (0 < s._interval → k.now + s.interval_us k.rate_mult < UINT64_SIZE)) :
    s._last_sent ≤ (s.update m t send).stream._last_sent
      ∧ List.Pairwise (fun a b => a ≤ b)
          (s._last_sent :: (s.update m t send).stream._last_sent ::
            ((s.update m t send).stream.run ticks).map (fun r => r.stream._last_sent)) := by
  have hb := update_last_sent_bounds s m t send hle ht hno
  have hcfg := update_keeps_config s m t send
  refine ⟨hb.1, ?_⟩
  have htrans : IsTrans Nat (fun a b => a ≤ b) := ⟨fun _ _ _ => le_trans⟩
  rw [← List.chain_iff_pairwise] at hmono
  rw [← List.chain_iff_pairwise, List.chain_cons]
  refine ⟨hb.1, run_last_sent_chain ticks _ ?_ ?_⟩
  · cases hks : ticks.map (fun k => k.now) with
    | nil => exact List.Chain.nil
    | cons a as =>
      rw [hks, List.chain_cons] at hmono
      exact List.Chain.cons (le_trans hb.2 hmono.1) hmono.2
  · intro x hx
    have hxx := hfit x hx
    refine ⟨hxx.1, fun hi => ?_⟩
    rw [interval_us_congr _ s x.rate_mult hcfg.1 hcfg.2]
    exact hxx.2 (by rw [← hcfg.1]; exact hi)

/-- Witness for C11: the const-rate sample polled late at 7.5 s, then three more times with
one failed `send`. -/
theorem C11_last_sent_monotone_witness :
    sampleConst._last_sent ≤ (sampleConst.update 1 7500000 sendOk).stream._last_sent
      ∧ List.Pairwise (fun a b => a ≤ b)
          (sampleConst._last_sent :: (sampleConst.update 1 7500000 sendOk).stream._last_sent ::
            ((sampleConst.update 1 7500000 sendOk).stream.run
              [⟨7500000, 1, true⟩, ⟨8000000, 1, false⟩, ⟨9900000, 1, true⟩]).map
                (fun r => r.stream._last_sent)) :=
  C11_last_sent_monotone sampleConst 1 7500000 sendOk
    [⟨7500000, 1, true⟩, ⟨8000000, 1, false⟩, ⟨9900000, 1, true⟩]
    (by decide) (by decide) (by intro _; rw [sampleConst_interval_us]; decide) (by decide)
    (by
      intro k hk
      rw [sampleConst_interval_us]
      simp only [List.mem_cons, List.mem_singleton, List.not_mem_nil, or_false] at hk
      rcases hk with rfl | rfl | rfl <;> decide)

/-! ## Scaling with the rate multiplier -/

/-- The effective interval of a variable-rate stream when the `float` quotient is
non-negative and fits 64 bits: the integer part of the quotient. -/
theorem interval_us_var (s : MavlinkStream) (m : ℚ) (hc : s.const_rate = false)
    (h0 : 0 ≤ toFloat (toFloat (s._interval : ℚ) / m))
    (hlt : toFloat (toFloat (s._interval : ℚ) / m) < (UINT64_SIZE : ℚ)) :
    (s.interval_us m : Int) = ⌊toFloat (toFloat (s._interval : ℚ) / m)⌋ := by
  unfold MavlinkStream.interval_us
  rw [hc]
  simp only [Bool.false_eq_true, if_false]
  unfold truncate
  rw [if_pos h0]
  apply toUInt64_of_nonneg_lt _ (Int.floor_nonneg.mpr h0)
  rw [Int.floor_lt]
  exact_mod_cast hlt

/-- Halving commutes with the rounding to `float`. -/
theorem toFloat_div_two (q : ℚ) : toFloat (q / 2) = toFloat q / 2 := by
  have h := toFloat_two_mul (q / 2)
  rw [mul_div_cancel₀ q (by norm_num : (2 : ℚ) ≠ 0)] at h
  rw [h]
  ring

/-- C14: rate-multiplier scaling.  For a stream with `const_rate` false, `_interval > 0` and
a positive rate multiplier `m` (the `float` quotients fitting 64 bits), the effective interval
computed with `m / 2` is twice the one computed with `m`, and the one computed with `2 * m`
is half of it, each up to the one unit lost when the `float` quotient `_interval / rate_mult`
is truncated to an unsigned integer. -/
theorem C14_rate_multiplier_scaling (s : MavlinkStream) (m : ℚ)
    (hc : s.const_rate = false) (hi : 0 < s._interval) (hm : 0 < m)
    (hfit : toFloat (toFloat (s._interval : ℚ) / (m / 2)) < (UINT64_SIZE : ℚ)) :
    (s.interval_us (m / 2) = 2 * s.interval_us m
        ∨ s.interval_us (m / 2) = 2 * s.interval_us m + 1)
      ∧ (s.interval_us m = 2 * s.interval_us (2 * m)
        ∨ s.interval_us m = 2 * s.interval_us (2 * m) + 1)
      ∧ s.interval_us (2 * m) = s.interval_us m / 2 := by
  have hiq : (0 : ℚ) ≤ (s._interval : ℚ) := by exact_mod_cast le_of_lt hi
  have hfi : 0 ≤ toFloat (s._interval : ℚ) := toFloat_nonneg _ hiq
  have hy : 0 ≤ toFloat (s._interval : ℚ) / m := div_nonneg hfi (le_of_lt hm)
  have hx : 0 ≤ toFloat (toFloat (s._interval : ℚ) / m) := toFloat_nonneg _ hy
  have hm0 : m ≠ 0 := ne_of_gt hm
  have hdouble : toFloat (s._interval : ℚ) / (m / 2)
      = 2 * (toFloat (s._interval : ℚ) / m) := by
    field_simp
    ring
  have hhalf : toFloat (s._interval : ℚ) / (2 * m)
      = (toFloat (s._interval : ℚ) / m) / 2 := by
    rw [div_div, mul_comm]
  rw [hdouble, toFloat_two_mul] at hfit
  have hlt1 : toFloat (toFloat (s._interval : ℚ) / m) < (UINT64_SIZE : ℚ) := by linarith
  have e1 := interval_us_var s m hc hx hlt1
  have e2 := interval_us_var s (m / 2) hc
    (by rw [hdouble, toFloat_two_mul]; linarith) (by rw [hdouble, toFloat_two_mul]; exact hfit)
  have e3 := interval_us_var s (2 * m) hc
    (by rw [hhalf, toFloat_div_two]; linarith) (by rw [hhalf, toFloat_div_two]; linarith)
  rw [hdouble, toFloat_two_mul] at e2
  rw [hhalf, toFloat_div_two] at e3
  -- the three integer parts
  have a1 := Int.floor_le (toFloat (toFloat (s._interval : ℚ) / m))
  have a2 := Int.lt_floor_add_one (toFloat (toFloat (s._interval : ℚ) / m))
  have b1 : 2 * ⌊toFloat (toFloat (s._interval : ℚ) / m)⌋
      ≤ ⌊2 * toFloat (toFloat (s._interval : ℚ) / m)⌋ := by
    rw [Int.le_floor]
    push_cast
    linarith
  have b2 : ⌊2 * toFloat (toFloat (s._interval : ℚ) / m)⌋
      < 2 * ⌊toFloat (toFloat (s._interval : ℚ) / m)⌋ + 2 := by
    rw [Int.floor_lt]
    push_cast
    linarith
  have c1 : 2 * ⌊toFloat (toFloat (s._interval : ℚ) / m) / 2⌋
      ≤ ⌊toFloat (toFloat (s._interval : ℚ) / m)⌋ := by
    rw [Int.le_floor]
    push_cast
    have := Int.floor_le (toFloat (toFloat (s._interval : ℚ) / m) / 2)
    linarith
  have c2 : ⌊toFloat (toFloat (s._interval : ℚ) / m)⌋
      < 2 * ⌊toFloat (toFloat (s._interval : ℚ) / m) / 2⌋ + 2 := by
    rw [Int.floor_lt]
    push_cast
    have := Int.lt_floor_add_one (toFloat (toFloat (s._interval : ℚ) / m) / 2)
    linarith
  refine ⟨?_, ?_, ?_⟩ <;> omega

/-- Witness for C14: the variable-rate sample (one second nominal) at half the nominal link
rate; the multipliers compared are 0.25, 0.5 and 1. -/
theorem C14_rate_multiplier_scaling_witness :
    (sampleVar.interval_us (1 / 2 / 2) = 2 * sampleVar.interval_us (1 / 2)
        ∨ sampleVar.interval_us (1 / 2 / 2) = 2 * sampleVar.interval_us (1 / 2) + 1)
      ∧ (sampleVar.interval_us (1 / 2) = 2 * sampleVar.interval_us (2 * (1 / 2))
        ∨ sampleVar.interval_us (1 / 2) = 2 * sampleVar.interval_us (2 * (1 / 2)) + 1)
      ∧ sampleVar.interval_us (2 * (1 / 2)) = sampleVar.interval_us (1 / 2) / 2 :=
  C14_rate_multiplier_scaling sampleVar (1 / 2) rfl (by decide) (by norm_num)
    (by
      show toFloat (toFloat ((1000000 : Int) : ℚ) / (1 / 2 / 2)) < (UINT64_SIZE : ℚ)
      rw [toFloat_intCast_of_lt _ (by decide) (by decide)]
      have hq : ((1000000 : Int) : ℚ) / (1 / 2 / 2) = ((4000000 : Int) : ℚ) := by norm_num
      rw [hq, toFloat_intCast_of_lt _ (by decide) (by decide)]
      norm_num [UINT64_SIZE])

/-! ## The protocol word of `netman` -/

/-- The search `strstr` fails exactly when `needle` is not a contiguous part of `haystack`. -/
theorem strstr_eq_none_iff (needle : List Char) :
    ∀ haystack : List Char, strstr haystack needle = none ↔ ¬ needle <:+: haystack := by
  intro haystack
  induction haystack with
  | nil =>
    unfold strstr
    by_cases h : needle.isPrefixOf [] = true
    · rw [if_pos h]
      have hp : needle <+: [] := List.isPrefixOf_iff_prefix.mp h
      simp [List.prefix_nil.mp hp]
    · rw [if_neg h]
      have hp : ¬ needle <+: [] := fun hp => h (List.isPrefixOf_iff_prefix.mpr hp)
      simp only [true_iff]
      intro hin
      exact hp (by rw [List.infix_nil] at hin; rw [hin])
  | cons c cs ih =>
    unfold strstr
    rw [List.infix_cons_iff]
    by_cases h : needle.isPrefixOf (c :: cs) = true
    · rw [if_pos h]
      have hp : needle <+: c :: cs := List.isPrefixOf_iff_prefix.mp h
      simp [hp]
    · rw [if_neg h, ih]
      have hp : ¬ needle <+: c :: cs := fun hp => h (List.isPrefixOf_iff_prefix.mpr hp)
      simp [hp]

/-- C19: the protocol words of `netman` round-trip.  For an object `y` whose protocol is
`DHCP`, `Static` or `Both`, `parseProtocol` applied (on any object `x`) to the string
`y.protocol ()` sets the protocol of `x` to that of `y`, leaves `myword` alone and returns its
argument; and for every string `ps` that contains none of "dhcp", "static" and "both",
`parseProtocol` leaves the object unchanged. -/
theorem C19_protocol_round_trip (x y : net_params.ipl) (ps : List Char)
    (he : y.e = net_params.DHCP ∨ y.e = net_params.Static ∨ y.e = net_params.Both) :
    (x.parseProtocol y.protocol).1.e = y.e
      ∧ (x.parseProtocol y.protocol).1.myword = x.myword
      ∧ (x.parseProtocol y.protocol).2 = y.protocol
      ∧ (¬ "dhcp".toList <:+: ps → ¬ "static".toList <:+: ps → ¬ "both".toList <:+: ps →
          (x.parseProtocol ps).1 = x) := by
  refine ⟨?_, ?_, ?_, ?_⟩
  · rcases he with h | h | h
    · have hp : y.protocol = "dhcp".toList := by
        unfold net_params.ipl.protocol
        rw [h]
        decide
      have s1 : strstr "dhcp".toList "dhcp".toList = some "dhcp".toList := by decide
      rw [hp, h]
      simp only [net_params.ipl.parseProtocol, s1]
    · have hp : y.protocol = "static".toList := by
        unfold net_params.ipl.protocol
        rw [h]
        decide
      have s1 : strstr "static".toList "dhcp".toList = none := by decide
      have s2 : strstr "static".toList "static".toList = some "static".toList := by decide
      rw [hp, h]
      simp only [net_params.ipl.parseProtocol, s1, s2]
    · have hp : y.protocol = "both".toList := by
        unfold net_params.ipl.protocol
        rw [h]
        decide
      have s1 : strstr "both".toList "dhcp".toList = none := by decide
      have s2 : strstr "both".toList "static".toList = none := by decide
      have s3 : strstr "both".toList "both".toList = some "both".toList := by decide
      rw [hp, h]
      simp only [net_params.ipl.parseProtocol, s1, s2, s3]
  · unfold net_params.ipl.parseProtocol
    split
    · rfl
    · split
      · rfl
      · split <;> rfl
  · unfold net_params.ipl.parseProtocol
    split
    · rfl
    · split
      · rfl
      · split <;> rfl
  · intro h1 h2 h3
    unfold net_params.ipl.parseProtocol
    rw [(strstr_eq_none_iff _ ps).mpr h1, (strstr_eq_none_iff _ ps).mpr h2,
      (strstr_eq_none_iff _ ps).mpr h3]

/-- Witness for C19: "static" is parsed back to `Static` by the freshly constructed `proto`
member, and a line with an address leaves it unchanged. -/
theorem C19_protocol_round_trip_witness :
    (sampleProto.parseProtocol
        (net_params.ipl.protocol { myword := [], e := net_params.Static })).1.e
        = net_params.Static
      ∧ (sampleProto.parseProtocol "ipaddr 10.41.10.2".toList).1 = sampleProto :=
  have h := C19_protocol_round_trip sampleProto { myword := [], e := net_params.Static }
    "ipaddr 10.41.10.2".toList (Or.inr (Or.inl rfl))
  ⟨h.1, h.2.2.2 ((strstr_eq_none_iff _ _).mp (by decide))
    ((strstr_eq_none_iff _ _).mp (by decide)) ((strstr_eq_none_iff _ _).mp (by decide))⟩
